import Mathlib

/-!
Verification development for the floristik-faunistik quiz.

The repository contains three question generators and a shared data
pipeline.  We give a shallow embedding of the relevant JavaScript code:

* `App` namespace: `src/app.js` (filterAndTransform, enrichWithTaxaData,
  buildQuizQuestions with the broad-group fallback).
* `Vocab` namespace: the vocab-only quiz of `src/unnamed/part_000`
  (buildSpeciesQuizQuestionsFromVocab and its genus/family siblings).
* `V2` namespace: the second script in `src/unnamed/part_000`
  (a buildQuizQuestions variant without the broad-group fallback).

JavaScript `Math.random()` based choices are modelled by explicit streams
of natural numbers: a stream `r : Nat → Nat` supplies, for each loop
index `i`, an arbitrary value whose remainder modulo the relevant bound
reproduces `Math.floor(Math.random() * bound)`.  Every concrete run of
the JavaScript corresponds to some choice of streams, and conversely.
Nullable JavaScript strings are `Option String`, with `none` for
`null`/`undefined`; JS string truthiness (empty string is falsy) is made
explicit by `strTruthy`.
-/

-- ==== CONFIG (src/app.js lines 2-19, identical in part_000) ============

def QUESTIONS_COUNT : Nat := 10

def OPTIONS_PER_QUESTION : Nat := 4

def REQUIRE_RESEARCH_GRADE : Bool := true

def ALLOWED_LICENSES : List String := ["cc0", "cc-by", "cc-by-nc"]

def GROUP_RANK_PRIORITY : List String := ["class", "phylum", "division"]

-- ==== JS string helpers ================================================

/-- Truthiness of a nullable JS string: `null`, `undefined` and `""` are falsy. -/
def strTruthy : Option String → Bool
  | none => false
  | some s => s != ""

/-- Evaluation of the JS idiom `x || null` on a nullable string. -/
def normStr (s : Option String) : Option String :=
  if strTruthy s then s else none

/-- Evaluation of the JS idiom `a || b` on nullable strings. -/
def jsOrStr (a b : Option String) : Option String :=
  if strTruthy a then a else b

/-- Lowercasing used by `licenseIsAllowed` (`code.toLowerCase()`). -/
def lowerString (s : String) : String :=
  String.mk (s.data.map Char.toLower)

/-- Helper for `String.prototype.replace`: does `pat` start the char list? -/
def listStartsWith : List Char → List Char → Bool
  | [], _ => true
  | _ :: _, [] => false
  | p :: ps, c :: cs => p == c && listStartsWith ps cs

/-- Replacement of the first occurrence only, as JS
`String.prototype.replace(string, string)` does. -/
def replaceFirstAux (pat rep : List Char) : List Char → List Char
  | [] => []
  | c :: rest =>
    if listStartsWith pat (c :: rest) then rep ++ (c :: rest).drop pat.length
    else c :: replaceFirstAux pat rep rest

/-- JS `s.replace(pat, rep)` with string arguments: first occurrence only. -/
def replaceFirst (s pat rep : String) : String :=
  String.mk (replaceFirstAux pat.data rep.data s.data)

/-- First element of `s.split(" ")`: the characters before the first space. -/
def firstSpaceToken (s : String) : String :=
  String.mk (s.data.takeWhile (fun c => c != ' '))

/-- JS `scientificName.split(" ")[0] || scientificName` from `filterAndTransform`. -/
def genusFromScientific (s : String) : String :=
  let t := firstSpaceToken s
  if t = "" then s else t

-- ==== shuffleArray / pickRandomSubset (src/app.js lines 51-64) =========

/-- Swap of two positions of a list; out-of-range indices leave the list
unchanged (Fisher-Yates only ever uses in-range indices). -/
def listSwap {α : Type} (l : List α) (i j : Nat) : List α :=
  match l[i]?, l[j]? with
  | some a, some b => (l.set i b).set j a
  | _, _ => l

/-- Loop of `shuffleArray`: index `i` runs downwards, each step swaps
position `i` with position `rand i % (i + 1)`, the value of
`Math.floor(Math.random() * (i + 1))`. -/
def shuffleAux {α : Type} (rand : Nat → Nat) : Nat → List α → List α
  | 0, arr => arr
  | i + 1, arr => shuffleAux rand i (listSwap arr (i + 1) (rand (i + 1) % (i + 2)))

/-- Embedding of `shuffleArray` (Fisher-Yates on a copy of the input). -/
def shuffleArray {α : Type} (rand : Nat → Nat) (array : List α) : List α :=
  shuffleAux rand (array.length - 1) array

/-- Embedding of `pickRandomSubset`. -/
def pickRandomSubset {α : Type} (rand : Nat → Nat) (array : List α) (n : Nat) : List α :=
  if array.length ≤ n then array else (shuffleArray rand array).take n

-- ==== permutation lemmas for the sampling helpers ======================

theorem cons_set_perm {α : Type} :
    ∀ (t : List α) (k : Nat) (b x : α), t[k]? = some b →
      List.Perm (x :: t) (b :: t.set k x)
  | [], k, b, x, h => by simp at h
  | c :: t', 0, b, x, h => by
    simp at h
    subst h
    simpa using List.Perm.swap _ x t'
  | c :: t', k + 1, b, x, h => by
    simp at h
    have h1 : List.Perm (x :: c :: t') (c :: x :: t') := List.Perm.swap c x t'
    have h2 : List.Perm (c :: x :: t') (c :: b :: t'.set k x) :=
      (cons_set_perm t' k b x h).cons c
    have h3 : List.Perm (c :: b :: t'.set k x) (b :: c :: t'.set k x) :=
      List.Perm.swap b c _
    simpa using (h1.trans h2).trans h3

theorem listSwap_perm {α : Type} :
    ∀ (l : List α) (i j : Nat), List.Perm (listSwap l i j) l := by
  intro l
  induction l with
  | nil => intro i j; simp [listSwap]
  | cons x t ih =>
    intro i j
    match i, j with
    | 0, 0 =>
      simp [listSwap]
    | 0, k + 1 =>
      cases h : t[k]? with
      | none => simp [listSwap, h]
      | some b =>
        simp only [listSwap, List.getElem?_cons_zero, List.getElem?_cons_succ, h,
          List.set_cons_zero, List.set_cons_succ]
        exact (cons_set_perm t k b x h).symm
    | i' + 1, 0 =>
      cases h : t[i']? with
      | none => simp [listSwap, h]
      | some a =>
        simp only [listSwap, List.getElem?_cons_zero, List.getElem?_cons_succ, h,
          List.set_cons_zero, List.set_cons_succ]
        exact (cons_set_perm t i' a x h).symm
    | i' + 1, j' + 1 =>
      cases h1 : t[i']? with
      | none => simp [listSwap, h1]
      | some a =>
        cases h2 : t[j']? with
        | none => simp [listSwap, h1, h2]
        | some b =>
          have hrec := ih i' j'
          simp only [listSwap, h1, h2] at hrec
          simp only [listSwap, List.getElem?_cons_succ, h1, h2, List.set_cons_succ]
          exact hrec.cons x

theorem shuffleAux_perm {α : Type} (rand : Nat → Nat) :
    ∀ (n : Nat) (l : List α), List.Perm (shuffleAux rand n l) l := by
  intro n
  induction n with
  | zero => intro l; exact List.Perm.refl l
  | succ i ih =>
    intro l
    exact (ih _).trans (listSwap_perm l (i + 1) (rand (i + 1) % (i + 2)))

theorem shuffleArray_perm {α : Type} (rand : Nat → Nat) (l : List α) :
    List.Perm (shuffleArray rand l) l :=
  shuffleAux_perm rand (l.length - 1) l

theorem shuffleArray_length {α : Type} (rand : Nat → Nat) (l : List α) :
    (shuffleArray rand l).length = l.length :=
  (shuffleArray_perm rand l).length_eq

theorem pickRandomSubset_length {α : Type} (rand : Nat → Nat) (l : List α) (n : Nat) :
    (pickRandomSubset rand l n).length = min n l.length := by
  unfold pickRandomSubset
  by_cases h : l.length ≤ n
  · rw [if_pos h]
    omega
  · rw [if_neg h, List.length_take, shuffleArray_length]

theorem pickRandomSubset_subperm {α : Type} (rand : Nat → Nat) (l : List α) (n : Nat) :
    List.Subperm (pickRandomSubset rand l n) l := by
  unfold pickRandomSubset
  by_cases h : l.length ≤ n
  · rw [if_pos h]
  · rw [if_neg h]
    exact ((List.take_sublist n _).subperm).trans (shuffleArray_perm rand l).subperm

theorem pickRandomSubset_subset {α : Type} (rand : Nat → Nat) (l : List α) (n : Nat) :
    ∀ x ∈ pickRandomSubset rand l n, x ∈ l :=
  fun x hx => (pickRandomSubset_subperm rand l n).subset hx

theorem subperm_nodup {α : Type} {l₁ l₂ : List α} (h : List.Subperm l₁ l₂)
    (hn : l₂.Nodup) : l₁.Nodup := by
  obtain ⟨t, ht, hs⟩ := h
  exact ht.nodup (hs.nodup hn)

theorem subperm_map {α β : Type} (f : α → β) {l₁ l₂ : List α}
    (h : List.Subperm l₁ l₂) : List.Subperm (l₁.map f) (l₂.map f) := by
  obtain ⟨t, ht, hs⟩ := h
  exact ⟨t.map f, ht.map f, hs.map f⟩

-- ==== data model (src/app.js) ==========================================

/-- Normalized observation record produced by `filterAndTransform`
(src/app.js lines 157-169). -/
structure Obs where
  obsId : Nat
  taxonId : Option Nat
  photoUrl : Option String
  scientificName : String
  swedishName : Option String
  genusName : String
  familyName : Option String
  broadGroup : Option String
  observer : String
  licenseCode : Option String
  obsUrl : String
deriving DecidableEq

/-- Raw photo object of the observations API. -/
structure RawPhoto where
  url : Option String
  license_code : Option String
deriving DecidableEq

/-- Raw taxon object embedded in a raw observation. -/
structure RawTaxon where
  id : Option Nat
  name : Option String
  preferred_common_name : Option String
deriving DecidableEq

/-- Raw observation record as returned by the observations API; nullable
fields are `Option`, `user_login` stands for `o.user && o.user.login`. -/
structure RawObs where
  id : Nat
  taxon : Option RawTaxon
  photos : Option (List RawPhoto)
  quality_grade : Option String
  license_code : Option String
  user_login : Option String
deriving DecidableEq

/-- Embedding of `licenseIsAllowed` (src/app.js lines 66-69). -/
def licenseIsAllowed (code : Option String) : Bool :=
  match code with
  | none => false
  | some c => if c = "" then false else ALLOWED_LICENSES.contains (lowerString c)

/-- Embedding of `buildPhotoUrl` (src/app.js lines 71-74); the call site
always passes a non-null photo. -/
def buildPhotoUrl (photo : RawPhoto) : Option String :=
  match photo.url with
  | none => none
  | some u => if u = "" then none else some (replaceFirst u "square." "large.")

/-- Loop body of `filterAndTransform` (src/app.js lines 129-170): `none`
when a `continue` fires, otherwise the normalized observation. -/
def normalizeObs (o : RawObs) : Option Obs :=
  match o.taxon with
  | none => none
  | some taxon =>
    let photos := o.photos.getD []
    if photos.isEmpty then none
    else if REQUIRE_RESEARCH_GRADE && o.quality_grade != some "research" then none
    else if strTruthy o.license_code && !licenseIsAllowed o.license_code then none
    else
      match photos.find? (fun p => licenseIsAllowed p.license_code) with
      | none => none
      | some photo =>
        match buildPhotoUrl photo with
        | none => none
        | some photoUrl =>
          let scientificName := taxon.name.getD ""
          if scientificName = "" then none
          else
            some {
              obsId := o.id
              taxonId := taxon.id
              photoUrl := some photoUrl
              scientificName := scientificName
              swedishName := normStr taxon.preferred_common_name
              genusName := genusFromScientific scientificName
              familyName := none
              broadGroup := none
              observer := (normStr o.user_login).getD "unknown"
              licenseCode := normStr (jsOrStr photo.license_code o.license_code)
              obsUrl := "https://www.inaturalist.org/observations/" ++ toString o.id }

/-- Embedding of `filterAndTransform` (src/app.js lines 126-173). -/
def filterAndTransform (rawObs : List RawObs) : List Obs :=
  rawObs.filterMap normalizeObs

-- ==== grouping (src/app.js lines 77-87 and 246-258) ====================

/-- Quiz level selected by the UI (`currentLevel`). -/
inductive Level
  | species
  | genus
  | family
deriving DecidableEq

/-- Embedding of `getGroupLabelForObs` (src/app.js lines 77-87); the JS
global `currentLevel` is an explicit argument. -/
def getGroupLabelForObs (level : Level) (obs : Obs) : Option String :=
  match level with
  | .genus => jsOrStr (some obs.genusName) (some obs.scientificName)
  | .family => normStr obs.familyName
  | .species => some obs.scientificName

/-- Label actually used by `buildQuizQuestions`: the `if (!label) continue`
truthiness test folded into the option. -/
def groupLabel (level : Level) (obs : Obs) : Option String :=
  normStr (getGroupLabelForObs level obs)

/-- Entry of the `groupsMap` of `buildQuizQuestions`. -/
structure QuizGroup where
  label : String
  obs : Obs
  broadGroup : Option String
deriving DecidableEq

/-- Embedding of the `groupsMap` construction (src/app.js lines 246-258):
insertion-ordered map from labels to their first observation. -/
def buildGroups (level : Level) : List Obs → List QuizGroup → List QuizGroup
  | [], acc => acc
  | obs :: rest, acc =>
    match groupLabel level obs with
    | none => buildGroups level rest acc
    | some label =>
      if acc.any (fun g => g.label == label) then buildGroups level rest acc
      else
        buildGroups level rest
          (acc ++ [{ label := label, obs := obs, broadGroup := normStr obs.broadGroup }])

/-- Candidate distractors with the same broad group
(src/app.js lines 272-278). -/
def sameBroadCandidates (groups : List QuizGroup) (g : QuizGroup) : List QuizGroup :=
  groups.filter (fun x =>
    x.label != g.label && strTruthy g.broadGroup && x.broadGroup == g.broadGroup)

/-- Candidate pool after the fallback (src/app.js lines 280-283). -/
def candidatePool (groups : List QuizGroup) (g : QuizGroup) : List QuizGroup :=
  let c := sameBroadCandidates groups g
  if c.length < OPTIONS_PER_QUESTION - 1 then
    groups.filter (fun x => x.label != g.label)
  else c

/-- Question of src/app.js: a correct observation plus shuffled options. -/
structure Question where
  correct : Obs
  options : List Obs
deriving DecidableEq

/-- Body of the question loop (src/app.js lines 268-299) for one selected
group. -/
def mkQuestion (randD randO : Nat → Nat) (groups : List QuizGroup) (g : QuizGroup) : Question :=
  let distractorGroups :=
    pickRandomSubset randD (candidatePool groups g) (OPTIONS_PER_QUESTION - 1)
  { correct := g.obs
    options := (shuffleArray randO (g :: distractorGroups)).map (fun grp => grp.obs) }

/-- Question loop over the chosen groups; `k` indexes the iteration so
that each iteration gets its own slice of the random streams. -/
def mkQuestionsLoop (randD randO : Nat → Nat → Nat) (groups : List QuizGroup) :
    Nat → List QuizGroup → List Question
  | _, [] => []
  | k, g :: rest =>
    mkQuestion (randD k) (randO k) groups g ::
      mkQuestionsLoop randD randO groups (k + 1) rest

/-- Embedding of `buildQuizQuestions` (src/app.js lines 244-302). -/
def buildQuizQuestions (randSel : Nat → Nat) (randD randO : Nat → Nat → Nat)
    (level : Level) (obsList : List Obs) : List Question :=
  let groups := buildGroups level obsList []
  if groups.isEmpty then []
  else
    let nQuestions := min QUESTIONS_COUNT groups.length
    mkQuestionsLoop randD randO groups 0 (pickRandomSubset randSel groups nQuestions)

-- ==== enrichment (src/app.js lines 176-241) ============================

/-- Ancestor entry of a taxa API record. -/
structure Ancestor where
  rank : String
  name : String
deriving DecidableEq

/-- Taxon record of the taxa API; missing `rank`/`name` are the empty
string, `ancestors` is `none` when not an array. -/
structure TaxonRec where
  id : Nat
  rank : String
  name : String
  ancestors : Option (List Ancestor)
deriving DecidableEq

/-- JS `[...new Set(list)]`: deduplication keeping first occurrences. -/
def dedupKeepFirst (l : List Nat) : List Nat :=
  l.foldl (fun acc x => if x ∈ acc then acc else acc ++ [x]) []

/-- Chunking loop `for (let i = 0; i < ids.length; i += chunkSize)` with
`chunkSize = 30` (src/app.js lines 189-192). -/
def chunkList (l : List Nat) : List (List Nat) :=
  if h : l = [] then [] else l.take 30 :: chunkList (l.drop 30)
termination_by l.length
decreasing_by
  have hl : l.length ≠ 0 := fun hh => h (List.eq_nil_of_length_eq_zero hh)
  simp [List.length_drop]
  omega

/-- Family-name extraction for one taxon (src/app.js lines 206-212). -/
def taxonFamilyName (t : TaxonRec) : Option String :=
  if t.rank = "family" then some t.name
  else
    match t.ancestors with
    | some ancs => (ancs.find? (fun a => a.rank == "family")).map (fun a => a.name)
    | none => none

/-- First ancestor matching the rank priority list
(src/app.js lines 215-223). -/
def findBroadGroup (ancs : List Ancestor) : List String → Option String
  | [] => none
  | r :: rest =>
    match ancs.find? (fun a => a.rank == r) with
    | some anc => some anc.name
    | none => findBroadGroup ancs rest

/-- Broad-group extraction for one taxon. -/
def taxonBroadGroup (t : TaxonRec) : Option String :=
  match t.ancestors with
  | some ancs => findBroadGroup ancs GROUP_RANK_PRIORITY
  | none => none

/-- Map updates for one taxon (src/app.js lines 225-230); the maps are
assoc lists with the newest binding first, matching `Map.set` overwrite.
Guarded by JS truthiness, so the empty string is never inserted. -/
def insertTaxon (maps : List (Nat × String) × List (Nat × String)) (t : TaxonRec) :
    List (Nat × String) × List (Nat × String) :=
  let maps1 :=
    match taxonFamilyName t with
    | some f => if f = "" then maps else ((t.id, f) :: maps.1, maps.2)
    | none => maps
  match taxonBroadGroup t with
  | some b => if b = "" then maps1 else (maps1.1, (t.id, b) :: maps1.2)
  | none => maps1

/-- Chunk loop of `enrichWithTaxaData`: `responses k` is the parsed reply
to the `k`-th request, `none` when the fetch failed, threw, or was not
OK; such a chunk is skipped. -/
def processChunks (responses : Nat → Option (List TaxonRec)) :
    List (List Nat) → Nat → List (Nat × String) × List (Nat × String) →
      List (Nat × String) × List (Nat × String)
  | [], _, maps => maps
  | _ :: rest, k, maps =>
    match responses k with
    | none => processChunks responses rest (k + 1) maps
    | some taxa => processChunks responses rest (k + 1) (taxa.foldl insertTaxon maps)

/-- Lookup `map.get(key) || null`; a `null` taxon id finds nothing. -/
def mapGet (m : List (Nat × String)) : Option Nat → Option String
  | none => none
  | some i => (m.find? (fun e => e.1 == i)).map (fun e => e.2)

/-- Deduplicated taxon ids of src/app.js lines 177-183. -/
def taxonIdsOf (obsList : List Obs) : List Nat :=
  dedupKeepFirst (obsList.filterMap (fun o => o.taxonId))

/-- Embedding of `enrichWithTaxaData` (src/app.js lines 176-241); the
final `forEach` mutation is the returned list. -/
def enrichWithTaxaData (responses : Nat → Option (List TaxonRec))
    (obsList : List Obs) : List Obs :=
  let ids := taxonIdsOf obsList
  if ids = [] then obsList
  else
    let maps := processChunks responses (chunkList ids) 0 ([], [])
    obsList.map (fun o =>
      { o with
        familyName := mapGet maps.1 o.taxonId
        broadGroup := mapGet maps.2 o.taxonId })

-- ==== lemmas about the groups map ======================================

theorem normStr_some {s : Option String} {b : String} (h : normStr s = some b) :
    s = some b ∧ b ≠ "" := by
  cases s with
  | none => simp [normStr, strTruthy] at h
  | some v =>
    by_cases hv : v = ""
    · subst hv
      simp [normStr, strTruthy] at h
    · simp [normStr, strTruthy, hv] at h
      subst h
      exact ⟨rfl, hv⟩

theorem buildGroups_cons_none {level : Level} {o : Obs} {rest : List Obs}
    {acc : List QuizGroup} (h : groupLabel level o = none) :
    buildGroups level (o :: rest) acc = buildGroups level rest acc := by
  conv_lhs => unfold buildGroups
  rw [h]

theorem buildGroups_cons_some {level : Level} {o : Obs} {rest : List Obs}
    {acc : List QuizGroup} {label : String} (h : groupLabel level o = some label) :
    buildGroups level (o :: rest) acc =
      if acc.any (fun g => g.label == label) then buildGroups level rest acc
      else
        buildGroups level rest
          (acc ++ [{ label := label, obs := o, broadGroup := normStr o.broadGroup }]) := by
  conv_lhs => unfold buildGroups
  rw [h]

theorem buildGroups_acc_grows {level : Level} :
    ∀ (l : List Obs) (acc : List QuizGroup),
      ∃ t, buildGroups level l acc = acc ++ t := by
  intro l
  induction l with
  | nil => intro acc; exact ⟨[], by simp [buildGroups]⟩
  | cons o rest ih =>
    intro acc
    cases hlab : groupLabel level o with
    | none => rw [buildGroups_cons_none hlab]; exact ih acc
    | some label =>
      rw [buildGroups_cons_some hlab]
      by_cases hany : acc.any (fun g => g.label == label) = true
      · rw [if_pos hany]
        exact ih acc
      · rw [if_neg hany]
        obtain ⟨t, ht⟩ :=
          ih (acc ++ [{ label := label, obs := o, broadGroup := normStr o.broadGroup }])
        exact ⟨_ :: t, by rw [ht, List.append_assoc]; rfl⟩

theorem buildGroups_mem {level : Level} :
    ∀ (l : List Obs) (acc : List QuizGroup) (g : QuizGroup),
      g ∈ buildGroups level l acc →
      g ∈ acc ∨ (g.obs ∈ l ∧ groupLabel level g.obs = some g.label ∧
        g.broadGroup = normStr g.obs.broadGroup) := by
  intro l
  induction l with
  | nil => intro acc g h; exact Or.inl h
  | cons o rest ih =>
    intro acc g h
    cases hlab : groupLabel level o with
    | none =>
      rw [buildGroups_cons_none hlab] at h
      rcases ih acc g h with hacc | ⟨h1, h2, h3⟩
      · exact Or.inl hacc
      · exact Or.inr ⟨List.mem_cons_of_mem o h1, h2, h3⟩
    | some label =>
      rw [buildGroups_cons_some hlab] at h
      by_cases hany : acc.any (fun g => g.label == label) = true
      · rw [if_pos hany] at h
        rcases ih acc g h with hacc | ⟨h1, h2, h3⟩
        · exact Or.inl hacc
        · exact Or.inr ⟨List.mem_cons_of_mem o h1, h2, h3⟩
      · rw [if_neg hany] at h
        rcases ih _ g h with hacc | ⟨h1, h2, h3⟩
        · rcases List.mem_append.mp hacc with hl | hr
          · exact Or.inl hl
          · rcases List.mem_singleton.mp hr with rfl
            exact Or.inr ⟨List.mem_cons_self o rest, by simpa using hlab, rfl⟩
        · exact Or.inr ⟨List.mem_cons_of_mem o h1, h2, h3⟩

theorem buildGroups_labels_nodup {level : Level} :
    ∀ (l : List Obs) (acc : List QuizGroup),
      (acc.map (fun g => g.label)).Nodup →
      ((buildGroups level l acc).map (fun g => g.label)).Nodup := by
  intro l
  induction l with
  | nil => intro acc h; exact h
  | cons o rest ih =>
    intro acc h
    cases hlab : groupLabel level o with
    | none => rw [buildGroups_cons_none hlab]; exact ih acc h
    | some label =>
      rw [buildGroups_cons_some hlab]
      by_cases hany : acc.any (fun g => g.label == label) = true
      · rw [if_pos hany]
        exact ih acc h
      · rw [if_neg hany]
        apply ih
        rw [List.map_append, List.nodup_append]
        refine ⟨h, by simp, ?_⟩
        intro s hs hsing
        simp at hsing
        subst hsing
        simp at hs
        obtain ⟨g, hg, hgl⟩ := hs
        simp at hany
        exact hany g hg hgl

theorem buildGroups_covers {level : Level} :
    ∀ (l : List Obs) (acc : List QuizGroup) (o : Obs) (s : String),
      o ∈ l → groupLabel level o = some s →
      ∃ g ∈ buildGroups level l acc, g.label = s := by
  intro l
  induction l with
  | nil => intro acc o s h; exact absurd h (List.not_mem_nil o)
  | cons o' rest ih =>
    intro acc o s hmem hlab
    rcases List.mem_cons.mp hmem with rfl | htail
    · rw [buildGroups_cons_some hlab]
      by_cases hany : acc.any (fun g => g.label == s) = true
      · rw [if_pos hany]
        simp at hany
        obtain ⟨g, hg, hgl⟩ := hany
        obtain ⟨t, ht⟩ := @buildGroups_acc_grows level rest acc
        exact ⟨g, by rw [ht]; exact List.mem_append.mpr (Or.inl hg), hgl⟩
      · rw [if_neg hany]
        obtain ⟨t, ht⟩ :=
          @buildGroups_acc_grows level rest
            (acc ++ [{ label := s, obs := o, broadGroup := normStr o.broadGroup }])
        refine ⟨{ label := s, obs := o, broadGroup := normStr o.broadGroup }, ?_, rfl⟩
        rw [ht]
        exact List.mem_append.mpr
          (Or.inl (List.mem_append.mpr (Or.inr (List.mem_singleton.mpr rfl))))
    · cases hlab' : groupLabel level o' with
      | none => rw [buildGroups_cons_none hlab']; exact ih acc o s htail hlab
      | some label' =>
        rw [buildGroups_cons_some hlab']
        by_cases hany : acc.any (fun g => g.label == label') = true
        · rw [if_pos hany]
          exact ih acc o s htail hlab
        · rw [if_neg hany]
          exact ih _ o s htail hlab

theorem buildGroups_drop_unlabeled {level : Level} :
    ∀ (l : List Obs) (acc : List QuizGroup),
      buildGroups level (l.filter (fun o => (groupLabel level o).isSome)) acc =
        buildGroups level l acc := by
  intro l
  induction l with
  | nil => intro acc; rfl
  | cons o rest ih =>
    intro acc
    cases hlab : groupLabel level o with
    | none =>
      rw [List.filter_cons_of_neg (by simp [hlab]), ih, buildGroups_cons_none hlab]
    | some label =>
      rw [List.filter_cons_of_pos (by simp [hlab]), buildGroups_cons_some hlab,
        buildGroups_cons_some hlab]
      by_cases hany : acc.any (fun g => g.label == label) = true
      · rw [if_pos hany, if_pos hany, ih]
      · rw [if_neg hany, if_neg hany, ih]

-- ==== lemmas about the question loop ===================================

theorem mkQuestionsLoop_length (randD randO : Nat → Nat → Nat) (groups : List QuizGroup) :
    ∀ (chosen : List QuizGroup) (k : Nat),
      (mkQuestionsLoop randD randO groups k chosen).length = chosen.length := by
  intro chosen
  induction chosen with
  | nil => intro k; rfl
  | cons g rest ih => intro k; simp [mkQuestionsLoop, ih]

theorem mkQuestionsLoop_map_correct (randD randO : Nat → Nat → Nat)
    (groups : List QuizGroup) :
    ∀ (chosen : List QuizGroup) (k : Nat),
      (mkQuestionsLoop randD randO groups k chosen).map (fun q => q.correct) =
        chosen.map (fun g => g.obs) := by
  intro chosen
  induction chosen with
  | nil => intro k; rfl
  | cons g rest ih =>
    intro k
    simp only [mkQuestionsLoop, List.map_cons, ih]
    rfl

theorem mkQuestionsLoop_mem (randD randO : Nat → Nat → Nat) (groups : List QuizGroup) :
    ∀ (chosen : List QuizGroup) (k : Nat) (q : Question),
      q ∈ mkQuestionsLoop randD randO groups k chosen →
      ∃ n g, g ∈ chosen ∧ q = mkQuestion (randD n) (randO n) groups g := by
  intro chosen
  induction chosen with
  | nil => intro k q h; cases h
  | cons g rest ih =>
    intro k q h
    rcases List.mem_cons.mp h with rfl | htail
    · exact ⟨k, g, List.mem_cons_self g rest, rfl⟩
    · obtain ⟨n, g', hg', hq⟩ := ih (k + 1) q htail
      exact ⟨n, g', List.mem_cons_of_mem g hg', hq⟩

-- ==== counting lemmas ==================================================

theorem countP_and_split {α : Type} (p q : α → Bool) :
    ∀ l : List α,
      l.countP p = l.countP (fun x => p x && q x) + l.countP (fun x => p x && !q x) := by
  intro l
  induction l with
  | nil => simp
  | cons x t ih =>
    by_cases hp : p x = true <;> by_cases hq : q x = true <;>
      simp [List.countP_cons, hp, hq, ih] <;> omega

theorem filter_partition_length {α : Type} (p : α → Bool) :
    ∀ l : List α, (l.filter p).length + (l.filter (fun x => !p x)).length = l.length := by
  intro l
  induction l with
  | nil => simp
  | cons x t ih =>
    by_cases hp : p x = true <;> simp [List.filter_cons, hp] <;> omega

theorem filter_label_eq_length (g : QuizGroup) :
    ∀ groups : List QuizGroup, g ∈ groups →
      ((groups.map (fun x => x.label)).Nodup) →
      (groups.filter (fun x => x.label == g.label)).length = 1 := by
  intro groups
  induction groups with
  | nil => intro h; cases h
  | cons y t ih =>
    intro hmem hnodup
    simp only [List.map_cons, List.nodup_cons] at hnodup
    by_cases hy : y.label = g.label
    · rw [List.filter_cons_of_pos (by simp [hy])]
      have hnone : t.filter (fun x => x.label == g.label) = [] := by
        rw [List.filter_eq_nil_iff]
        intro x hx hlx
        simp at hlx
        exact hnodup.1 (by rw [hy, ← hlx]; exact List.mem_map_of_mem (fun z => z.label) hx)
      simp [hnone]
    · rw [List.filter_cons_of_neg (by simp [hy])]
      have hgt : g ∈ t := by
        rcases List.mem_cons.mp hmem with rfl | ht
        · exact absurd rfl hy
        · exact ht
      exact ih hgt hnodup.2

theorem filter_label_ne_length (g : QuizGroup) (groups : List QuizGroup)
    (hmem : g ∈ groups) (hnodup : (groups.map (fun x => x.label)).Nodup) :
    (groups.filter (fun x => x.label != g.label)).length = groups.length - 1 := by
  have hpart := filter_partition_length (fun x => x.label == g.label) groups
  have hone := filter_label_eq_length g groups hmem hnodup
  have heq : groups.filter (fun x => !(x.label == g.label)) =
      groups.filter (fun x => x.label != g.label) := by
    apply List.filter_congr
    intro x _
    rfl
  rw [hone, heq] at hpart
  omega

-- ==== lemmas about distractor candidates ===============================

theorem sameBroadCandidates_subset (groups : List QuizGroup) (g : QuizGroup) :
    ∀ x ∈ sameBroadCandidates groups g,
      x ∈ groups ∧ x.label ≠ g.label ∧ x.broadGroup = g.broadGroup := by
  intro x hx
  unfold sameBroadCandidates at hx
  have h := List.mem_filter.mp hx
  have h2 := h.2
  simp only [Bool.and_eq_true, bne_iff_ne, ne_eq, beq_iff_eq] at h2
  exact ⟨h.1, h2.1.1, h2.2⟩

theorem sameBroadCandidates_le (groups : List QuizGroup) (g : QuizGroup)
    (hmem : g ∈ groups) (hnodup : (groups.map (fun x => x.label)).Nodup) :
    (sameBroadCandidates groups g).length ≤ groups.length - 1 := by
  have h1 : (sameBroadCandidates groups g).length ≤
      (groups.filter (fun x => x.label != g.label)).length := by
    unfold sameBroadCandidates
    rw [← List.countP_eq_length_filter, ← List.countP_eq_length_filter]
    apply List.countP_mono_left
    intro x _ hx
    simp only [Bool.and_eq_true] at hx
    exact hx.1.1
  rw [filter_label_ne_length g groups hmem hnodup] at h1
  exact h1

theorem sameBroadCandidates_ge (groups : List QuizGroup) (g : QuizGroup)
    (hmem : g ∈ groups) (hnodup : (groups.map (fun x => x.label)).Nodup)
    (b : String) (hb : g.broadGroup = some b) (hbne : b ≠ "") :
    groups.countP (fun x => x.broadGroup == some b) - 1 ≤
      (sameBroadCandidates groups g).length := by
  have hsplit := countP_and_split (fun x : QuizGroup => x.broadGroup == some b)
    (fun x => x.label != g.label) groups
  have hone : groups.countP
      (fun x => (x.broadGroup == some b) && !(x.label != g.label)) ≤ 1 := by
    have hmono : groups.countP
        (fun x => (x.broadGroup == some b) && !(x.label != g.label)) ≤
        groups.countP (fun x => x.label == g.label) := by
      apply List.countP_mono_left
      intro x _ hx
      simp only [Bool.and_eq_true] at hx
      simpa using hx.2
    have hcnt : groups.countP (fun x => x.label == g.label) = 1 := by
      rw [List.countP_eq_length_filter]
      exact filter_label_eq_length g groups hmem hnodup
    omega
  have hst : strTruthy (some b) = true := by simpa [strTruthy] using hbne
  have hsub : groups.countP
      (fun x => (x.broadGroup == some b) && (x.label != g.label)) ≤
      (sameBroadCandidates groups g).length := by
    unfold sameBroadCandidates
    rw [hb, ← List.countP_eq_length_filter]
    apply List.countP_mono_left
    intro x _ hx
    simp only [Bool.and_eq_true] at hx
    simp [hx.1, hx.2, hst]
  omega

theorem candidatePool_spec (groups : List QuizGroup) (g : QuizGroup) :
    ∀ x ∈ candidatePool groups g, x ∈ groups ∧ x.label ≠ g.label := by
  intro x hx
  unfold candidatePool at hx
  by_cases hc : (sameBroadCandidates groups g).length < OPTIONS_PER_QUESTION - 1
  · rw [if_pos hc] at hx
    have h := List.mem_filter.mp hx
    refine ⟨h.1, by simpa using h.2⟩
  · rw [if_neg hc] at hx
    have h := sameBroadCandidates_subset groups g x hx
    exact ⟨h.1, h.2.1⟩

theorem mkQuestion_options_length (randD randO : Nat → Nat) (groups : List QuizGroup)
    (g : QuizGroup) (hmem : g ∈ groups)
    (hnodup : (groups.map (fun x => x.label)).Nodup) :
    (mkQuestion randD randO groups g).options.length =
      min OPTIONS_PER_QUESTION groups.length := by
  have hg1 : 0 < groups.length := List.length_pos_of_mem hmem
  unfold mkQuestion
  simp only [List.length_map]
  rw [shuffleArray_length, List.length_cons, pickRandomSubset_length]
  unfold candidatePool
  by_cases hc : (sameBroadCandidates groups g).length < OPTIONS_PER_QUESTION - 1
  · rw [if_pos hc, filter_label_ne_length g groups hmem hnodup]
    simp only [OPTIONS_PER_QUESTION]
    omega
  · rw [if_neg hc]
    have hub := sameBroadCandidates_le groups g hmem hnodup
    simp only [OPTIONS_PER_QUESTION] at hc hub ⊢
    omega

theorem mkQuestion_options_labels_perm (level : Level) (randD randO : Nat → Nat)
    (groups : List QuizGroup) (g : QuizGroup) (hmem : g ∈ groups)
    (hlabels : ∀ x ∈ groups, groupLabel level x.obs = some x.label) :
    List.Perm ((mkQuestion randD randO groups g).options.map (groupLabel level))
      (some g.label ::
        (pickRandomSubset randD (candidatePool groups g) (OPTIONS_PER_QUESTION - 1)).map
          (fun x => some x.label)) := by
  unfold mkQuestion
  simp only [List.map_map]
  have hperm := (shuffleArray_perm randO
    (g :: pickRandomSubset randD (candidatePool groups g)
      (OPTIONS_PER_QUESTION - 1))).map (fun x : QuizGroup => groupLabel level x.obs)
  refine hperm.trans ?_
  rw [List.map_cons, hlabels g hmem]
  apply List.Perm.cons
  rw [List.map_congr_left]
  intro x hx
  exact hlabels x (candidatePool_spec groups g x (pickRandomSubset_subset randD _ _ x hx)).1

theorem buildQuizQuestions_mem (randSel : Nat → Nat) (randD randO : Nat → Nat → Nat)
    (level : Level) (obsList : List Obs) (q : Question)
    (h : q ∈ buildQuizQuestions randSel randD randO level obsList) :
    ∃ n g, g ∈ buildGroups level obsList [] ∧
      g ∈ pickRandomSubset randSel (buildGroups level obsList [])
        (min QUESTIONS_COUNT (buildGroups level obsList []).length) ∧
      q = mkQuestion (randD n) (randO n) (buildGroups level obsList []) g := by
  simp only [buildQuizQuestions] at h
  by_cases he : (buildGroups level obsList []).isEmpty = true
  · rw [if_pos he] at h
    cases h
  · rw [if_neg he] at h
    obtain ⟨n, g, hg, hq⟩ := mkQuestionsLoop_mem randD randO _ _ 0 q h
    exact ⟨n, g, pickRandomSubset_subset randSel _ _ g hg, hg, hq⟩

theorem buildGroups_root_labels (level : Level) (obsList : List Obs) :
    ∀ g ∈ buildGroups level obsList [],
      groupLabel level g.obs = some g.label ∧
      g.broadGroup = normStr g.obs.broadGroup ∧ g.obs ∈ obsList := by
  intro g hg
  rcases buildGroups_mem obsList [] g hg with h | ⟨h1, h2, h3⟩
  · cases h
  · exact ⟨h2, h3, h1⟩

theorem buildGroups_root_nodup (level : Level) (obsList : List Obs) :
    ((buildGroups level obsList []).map (fun g => g.label)).Nodup :=
  buildGroups_labels_nodup obsList [] (by simp)

theorem candidatePool_sublist (groups : List QuizGroup) (g : QuizGroup) :
    List.Sublist (candidatePool groups g) groups := by
  unfold candidatePool sameBroadCandidates
  by_cases hc : (List.filter (fun x =>
      x.label != g.label && strTruthy g.broadGroup && x.broadGroup == g.broadGroup)
      groups).length < OPTIONS_PER_QUESTION - 1
  · rw [if_pos hc]
    exact List.filter_sublist groups
  · rw [if_neg hc]
    exact List.filter_sublist groups

theorem quiz_count_core
    (randSel : Nat → Nat) (randD randO : Nat → Nat → Nat)
    (level : Level) (obsList : List Obs) :
    (buildQuizQuestions randSel randD randO level obsList).length =
      min QUESTIONS_COUNT (buildGroups level obsList []).length ∧
    ((buildQuizQuestions randSel randD randO level obsList).map
      (fun q => groupLabel level q.correct)).Nodup := by
  constructor
  · simp only [buildQuizQuestions]
    by_cases he : (buildGroups level obsList []).isEmpty = true
    · rw [if_pos he]
      have h0 : (buildGroups level obsList []).length = 0 :=
        List.isEmpty_iff_length_eq_zero.mp he
      simp [h0]
    · rw [if_neg he]
      rw [mkQuestionsLoop_length, pickRandomSubset_length]
      omega
  · simp only [buildQuizQuestions]
    by_cases he : (buildGroups level obsList []).isEmpty = true
    · rw [if_pos he]
      simp
    · rw [if_neg he]
      have h1 : (mkQuestionsLoop randD randO (buildGroups level obsList []) 0
            (pickRandomSubset randSel (buildGroups level obsList [])
              (min QUESTIONS_COUNT (buildGroups level obsList []).length))).map
            (fun q => groupLabel level q.correct) =
          ((pickRandomSubset randSel (buildGroups level obsList [])
            (min QUESTIONS_COUNT (buildGroups level obsList []).length)).map
            (fun g => g.label)).map some := by
        rw [show (fun q => groupLabel level q.correct) =
          (groupLabel level) ∘ (fun q : Question => q.correct) from rfl]
        rw [← List.map_map, mkQuestionsLoop_map_correct, List.map_map, List.map_map]
        apply List.map_congr_left
        intro g hg
        exact (buildGroups_root_labels level obsList g
          (pickRandomSubset_subset randSel _ _ g hg)).1
      rw [h1]
      apply List.Nodup.map (Option.some_injective String)
      exact subperm_nodup (subperm_map _ (pickRandomSubset_subperm randSel _ _))
        (buildGroups_root_nodup level obsList)

/-- C2: for every observation list and level, `buildQuizQuestions` returns
exactly `min QUESTIONS_COUNT groupCount` questions, and — because the
correct answers are drawn by a Fisher-Yates shuffle followed by a slice,
i.e. without replacement — the group labels of the correct answers are
pairwise distinct.  This holds for every random stream. -/
theorem buildQuizQuestions_count_and_distinct_correct
    (randSel : Nat → Nat) (randD randO : Nat → Nat → Nat)
    (level : Level) (obsList : List Obs) :
    (buildQuizQuestions randSel randD randO level obsList).length =
      min QUESTIONS_COUNT (buildGroups level obsList []).length ∧
    ((buildQuizQuestions randSel randD randO level obsList).map
      (fun q => groupLabel level q.correct)).Nodup :=
  quiz_count_core randSel randD randO level obsList

theorem quiz_options_core
    (randSel : Nat → Nat) (randD randO : Nat → Nat → Nat) (level : Level)
    (obsList : List Obs) (q : Question)
    (hq : q ∈ buildQuizQuestions randSel randD randO level obsList) :
    q.options.length = min OPTIONS_PER_QUESTION (buildGroups level obsList []).length ∧
    (q.options.map (groupLabel level)).Nodup ∧
    (q.options.map (groupLabel level)).countP
      (fun s => s == groupLabel level q.correct) = 1 := by
  obtain ⟨n, g, hgmem, hgch, rfl⟩ :=
    buildQuizQuestions_mem randSel randD randO level obsList q hq
  have hnodup := buildGroups_root_nodup level obsList
  have hlabels : ∀ x ∈ buildGroups level obsList [],
      groupLabel level x.obs = some x.label :=
    fun x hx => (buildGroups_root_labels level obsList x hx).1
  have hperm := mkQuestion_options_labels_perm level (randD n) (randO n)
    (buildGroups level obsList []) g hgmem hlabels
  have hdsnotin : some g.label ∉
      (pickRandomSubset (randD n) (candidatePool (buildGroups level obsList []) g)
        (OPTIONS_PER_QUESTION - 1)).map (fun x => some x.label) := by
    intro hin
    obtain ⟨x, hx, hxe⟩ := List.mem_map.mp hin
    have hxg := candidatePool_spec (buildGroups level obsList []) g x
      (pickRandomSubset_subset (randD n) _ _ x hx)
    exact hxg.2 (Option.some_injective String hxe)
  have hdsnodup :
      ((pickRandomSubset (randD n) (candidatePool (buildGroups level obsList []) g)
        (OPTIONS_PER_QUESTION - 1)).map (fun x => some x.label)).Nodup := by
    rw [show (fun x : QuizGroup => some x.label) =
      some ∘ (fun x : QuizGroup => x.label) from rfl]
    rw [← List.map_map]
    apply List.Nodup.map (Option.some_injective String)
    apply subperm_nodup (subperm_map _ (pickRandomSubset_subperm (randD n) _ _))
    exact ((candidatePool_sublist (buildGroups level obsList []) g).map
      (fun x => x.label)).nodup hnodup
  refine ⟨mkQuestion_options_length (randD n) (randO n) _ g hgmem hnodup, ?_, ?_⟩
  · exact hperm.symm.nodup (List.nodup_cons.mpr ⟨hdsnotin, hdsnodup⟩)
  · have hcor : (mkQuestion (randD n) (randO n) (buildGroups level obsList []) g).correct
        = g.obs := rfl
    rw [hcor, hlabels g hgmem, hperm.countP_eq, List.countP_cons]
    have htail : (List.map (fun x : QuizGroup => some x.label)
        (pickRandomSubset (randD n) (candidatePool (buildGroups level obsList []) g)
          (OPTIONS_PER_QUESTION - 1))).countP (fun s => s == some g.label) = 0 := by
      rw [List.countP_eq_zero]
      intro s hs hbeq
      apply hdsnotin
      have : s = some g.label := by simpa using hbeq
      rwa [this] at hs
    rw [htail]
    simp

-- ==== C4: same-broad-group distractors =================================

/-- Reconstruction of the `groupsMap` entry that produced a question, from
the question's correct observation. -/
def groupOfCorrect (level : Level) (o : Obs) : QuizGroup :=
  { label := (groupLabel level o).getD "", obs := o, broadGroup := normStr o.broadGroup }

theorem groupOfCorrect_eq {level : Level} {obsList : List Obs} {g : QuizGroup}
    (hg : g ∈ buildGroups level obsList []) : groupOfCorrect level g.obs = g := by
  obtain ⟨h1, h2, _⟩ := buildGroups_root_labels level obsList g hg
  unfold groupOfCorrect
  cases g with
  | mk label obs broadGroup =>
    simp at h1 h2 ⊢
    exact ⟨by rw [h1]; rfl, h2.symm⟩

theorem mkQuestion_options_source (randD randO : Nat → Nat) (groups : List QuizGroup)
    (g : QuizGroup) (hmem : g ∈ groups) :
    ∀ opt ∈ (mkQuestion randD randO groups g).options,
      ∃ x ∈ groups, x.obs = opt ∧ (x = g ∨ x ∈ candidatePool groups g) := by
  intro opt hopt
  unfold mkQuestion at hopt
  simp only [List.mem_map] at hopt
  obtain ⟨x, hx, rfl⟩ := hopt
  have hx2 := (shuffleArray_perm randO _).mem_iff.mp hx
  rcases List.mem_cons.mp hx2 with rfl | hds
  · exact ⟨x, hmem, rfl, Or.inl rfl⟩
  · have hpool := pickRandomSubset_subset randD _ _ x hds
    exact ⟨x, (candidatePool_spec groups g x hpool).1, rfl, Or.inr hpool⟩

/-- C4: whenever at least `OPTIONS_PER_QUESTION` groups carry the correct
answer's broad group, no fallback fires, so every option of that question
(correct answer and all distractors) carries the same broad group. -/
theorem buildQuizQuestions_same_broad_distractors
    (randSel : Nat → Nat) (randD randO : Nat → Nat → Nat) (level : Level)
    (obsList : List Obs) (q : Question) (b : String)
    (hq : q ∈ buildQuizQuestions randSel randD randO level obsList)
    (hb : normStr q.correct.broadGroup = some b)
    (hcount : OPTIONS_PER_QUESTION ≤
      (buildGroups level obsList []).countP (fun x => x.broadGroup == some b)) :
    ∀ opt ∈ q.options, normStr opt.broadGroup = some b := by
  obtain ⟨n, g, hgmem, hgch, rfl⟩ :=
    buildQuizQuestions_mem randSel randD randO level obsList q hq
  have hnodup := buildGroups_root_nodup level obsList
  have hcor : (mkQuestion (randD n) (randO n) (buildGroups level obsList []) g).correct
      = g.obs := rfl
  rw [hcor] at hb
  have hroot := buildGroups_root_labels level obsList g hgmem
  have hgb : g.broadGroup = some b := by rw [hroot.2.1]; exact hb
  have hbne : b ≠ "" := (normStr_some hb).2
  have hge := sameBroadCandidates_ge (buildGroups level obsList []) g hgmem hnodup
    b hgb hbne
  have hnofb : ¬ ((sameBroadCandidates (buildGroups level obsList []) g).length <
      OPTIONS_PER_QUESTION - 1) := by
    simp only [OPTIONS_PER_QUESTION] at hcount hge ⊢
    omega
  intro opt hopt
  obtain ⟨x, hxg, rfl, hcase⟩ := mkQuestion_options_source (randD n) (randO n)
    (buildGroups level obsList []) g hgmem opt hopt
  have hxroot := buildGroups_root_labels level obsList x hxg
  rcases hcase with rfl | hpool
  · rw [← hroot.2.1]
    exact hgb
  · have hpool2 : x ∈ sameBroadCandidates (buildGroups level obsList []) g := by
      unfold candidatePool at hpool
      rwa [if_neg hnofb] at hpool
    have hxb := (sameBroadCandidates_subset (buildGroups level obsList []) g x hpool2).2.2
    rw [← hxroot.2.1, hxb, hgb]

-- ==== C3 (amended): the fallback pool ==================================

/-- C3 (amended, the src/app.js generator): when fewer than
`OPTIONS_PER_QUESTION - 1` other groups share the selected group's broad
group, the candidate pool falls back to all other groups regardless of
broad group (only the correct label is excluded), the question is still
produced with an unchanged option count, the number of questions is
unaffected, and every option still comes from the groups map.  The
`part_000` variant generator does not do this; see the counterexample. -/
theorem buildQuizQuestions_fallback_pool
    (randSel : Nat → Nat) (randD randO : Nat → Nat → Nat) (level : Level)
    (obsList : List Obs) (q : Question)
    (hq : q ∈ buildQuizQuestions randSel randD randO level obsList)
    (hscarce : (sameBroadCandidates (buildGroups level obsList [])
        (groupOfCorrect level q.correct)).length < OPTIONS_PER_QUESTION - 1) :
    candidatePool (buildGroups level obsList []) (groupOfCorrect level q.correct) =
      (buildGroups level obsList []).filter
        (fun x => x.label != (groupOfCorrect level q.correct).label) ∧
    q.options.length =
      min OPTIONS_PER_QUESTION (buildGroups level obsList []).length ∧
    (buildQuizQuestions randSel randD randO level obsList).length =
      min QUESTIONS_COUNT (buildGroups level obsList []).length ∧
    ∀ opt ∈ q.options, ∃ x ∈ buildGroups level obsList [], x.obs = opt := by
  refine ⟨?_, ?_, (quiz_count_core randSel randD randO level obsList).1, ?_⟩
  · unfold candidatePool
    rw [if_pos hscarce]
  · obtain ⟨n, g, hgmem, hgch, rfl⟩ :=
      buildQuizQuestions_mem randSel randD randO level obsList q hq
    exact mkQuestion_options_length (randD n) (randO n) _ g hgmem
      (buildGroups_root_nodup level obsList)
  · obtain ⟨n, g, hgmem, hgch, rfl⟩ :=
      buildQuizQuestions_mem randSel randD randO level obsList q hq
    intro opt hopt
    obtain ⟨x, hxg, hxe, _⟩ := mkQuestion_options_source (randD n) (randO n)
      (buildGroups level obsList []) g hgmem opt hopt
    exact ⟨x, hxg, hxe⟩

-- ==== concrete data for witnesses and counterexamples ==================

/-- Zero random stream: every `Math.random()` draw returns 0. -/
def zeroR : Nat → Nat := fun _ => 0

/-- Zero random stream family for indexed loops. -/
def zeroR2 : Nat → Nat → Nat := fun _ _ => 0

/-- Sample normalized observation. -/
def mkSampleObs (n : Nat) (sci : String) (broad : Option String) : Obs :=
  { obsId := n, taxonId := some n, photoUrl := some "photo", scientificName := sci,
    swedishName := none, genusName := firstSpaceToken sci, familyName := none,
    broadGroup := broad, observer := "someone", licenseCode := some "cc0",
    obsUrl := "url" }

def soloObs : Obs := mkSampleObs 1 "Parus major" (some "Aves")

def insectObs1 : Obs := mkSampleObs 1 "Apis mellifera" (some "Insecta")

def insectObs2 : Obs := mkSampleObs 2 "Bombus terrestris" (some "Insecta")

def insectObs3 : Obs := mkSampleObs 3 "Vespa crabro" (some "Insecta")

def insectObs4 : Obs := mkSampleObs 4 "Formica rufa" (some "Insecta")

def insectList : List Obs := [insectObs1, insectObs2, insectObs3, insectObs4]

def insectQuiz : List Question :=
  buildQuizQuestions zeroR zeroR2 zeroR2 Level.species insectList

def insectQ0 : Question := insectQuiz.headD { correct := insectObs1, options := [] }

def birdObs : Obs := mkSampleObs 5 "Parus major" (some "Aves")

def mixedList : List Obs := [insectObs1, birdObs]

def mixedQuiz : List Question :=
  buildQuizQuestions zeroR zeroR2 zeroR2 Level.species mixedList

def mixedQ0 : Question := mixedQuiz.headD { correct := insectObs1, options := [] }

/-- Witness for C4: with four groups of broad group Insecta, the first
option of the first question again carries broad group Insecta. -/
theorem buildQuizQuestions_same_broad_distractors_witness :
    normStr (insectQ0.options.headD insectObs1).broadGroup = some "Insecta" :=
  buildQuizQuestions_same_broad_distractors zeroR zeroR2 zeroR2 Level.species
    insectList insectQ0 "Insecta" (by decide) (by decide) (by decide)
    (insectQ0.options.headD insectObs1) (by decide)

/-- Witness for the amended C3: with one Insecta and one Aves group the
fallback pool is all other groups and the question still has
`min OPTIONS_PER_QUESTION groupCount` options. -/
theorem buildQuizQuestions_fallback_pool_witness :
    candidatePool (buildGroups Level.species mixedList [])
        (groupOfCorrect Level.species mixedQ0.correct) =
      (buildGroups Level.species mixedList []).filter
        (fun x => x.label != (groupOfCorrect Level.species mixedQ0.correct).label) ∧
    mixedQ0.options.length =
      min OPTIONS_PER_QUESTION (buildGroups Level.species mixedList []).length :=
  ⟨(buildQuizQuestions_fallback_pool zeroR zeroR2 zeroR2 Level.species mixedList
      mixedQ0 (by decide) (by decide)).1,
   (buildQuizQuestions_fallback_pool zeroR zeroR2 zeroR2 Level.species mixedList
      mixedQ0 (by decide) (by decide)).2.1⟩

-- ==== C5: grouping and label semantics =================================

/-- C5: grouping deduplicates observations by the level-appropriate label
(scientific name at species level, genus name at genus level, family name
at family level); observations lacking a label at the active level are
dropped: they contribute to no group and to no question. -/
theorem grouping_dedup_and_drop (level : Level) (obsList : List Obs)
    (randSel : Nat → Nat) (randD randO : Nat → Nat → Nat) :
    buildGroups level (obsList.filter (fun o => (groupLabel level o).isSome)) [] =
      buildGroups level obsList [] ∧
    buildQuizQuestions randSel randD randO level
        (obsList.filter (fun o => (groupLabel level o).isSome)) =
      buildQuizQuestions randSel randD randO level obsList ∧
    ((buildGroups level obsList []).map (fun g => g.label)).Nodup ∧
    (∀ g ∈ buildGroups level obsList [],
      groupLabel level g.obs = some g.label ∧ g.obs ∈ obsList) ∧
    (∀ o ∈ obsList, ∀ s, groupLabel level o = some s →
      ∃ g ∈ buildGroups level obsList [], g.label = s) ∧
    (∀ o : Obs, o.scientificName ≠ "" →
      groupLabel Level.species o = some o.scientificName) ∧
    (∀ o : Obs, o.genusName ≠ "" → groupLabel Level.genus o = some o.genusName) ∧
    (∀ o : Obs, ∀ f, o.familyName = some f → f ≠ "" →
      groupLabel Level.family o = some f) ∧
    (∀ o : Obs, o.familyName = none → groupLabel Level.family o = none) := by
  refine ⟨buildGroups_drop_unlabeled obsList [], ?_, buildGroups_root_nodup level obsList,
    ?_, ?_, ?_, ?_, ?_, ?_⟩
  · simp only [buildQuizQuestions]
    rw [buildGroups_drop_unlabeled]
  · intro g hg
    have h := buildGroups_root_labels level obsList g hg
    exact ⟨h.1, h.2.2⟩
  · intro o ho s hs
    exact buildGroups_covers obsList [] o s ho hs
  · intro o h
    simp [groupLabel, getGroupLabelForObs, normStr, strTruthy, h]
  · intro o h
    simp [groupLabel, getGroupLabelForObs, jsOrStr, normStr, strTruthy, h]
  · intro o f hf hne
    simp [groupLabel, getGroupLabelForObs, normStr, strTruthy, hf, hne]
  · intro o hf
    simp [groupLabel, getGroupLabelForObs, normStr, strTruthy, hf]

def famObs : Obs := { mkSampleObs 1 "Parus major" (some "Aves") with
  familyName := some "Paridae" }

def nofamObs : Obs := mkSampleObs 2 "Apis mellifera" (some "Insecta")

def famList : List Obs := [famObs, nofamObs]

/-- Witness for C5 at a concrete input: at family level, the observation
without a family name is dropped from grouping and question building, and
the family-level label of the other one is its family name. -/
theorem grouping_dedup_and_drop_witness :
    buildGroups Level.family
        (famList.filter (fun o => (groupLabel Level.family o).isSome)) [] =
      buildGroups Level.family famList [] ∧
    buildQuizQuestions zeroR zeroR2 zeroR2 Level.family
        (famList.filter (fun o => (groupLabel Level.family o).isSome)) =
      buildQuizQuestions zeroR zeroR2 zeroR2 Level.family famList ∧
    groupLabel Level.family famObs = some "Paridae" :=
  ⟨(grouping_dedup_and_drop Level.family famList zeroR zeroR2 zeroR2).1,
   (grouping_dedup_and_drop Level.family famList zeroR zeroR2 zeroR2).2.1,
   (grouping_dedup_and_drop Level.family famList zeroR zeroR2
      zeroR2).2.2.2.2.2.2.2.1 famObs "Paridae" rfl (by decide)⟩

-- ==== C6 and C9: the filter pipeline ===================================

/-- Condition: the raw record has no photo with an allowed license (this
subsumes having no photos at all). -/
def noAllowedPhoto (o : RawObs) : Bool :=
  (o.photos.getD []).all (fun p => !licenseIsAllowed p.license_code)

/-- Condition: the observation-level license is present (truthy) but not
allowed. -/
def disallowedObsLicense (o : RawObs) : Bool :=
  strTruthy o.license_code && !licenseIsAllowed o.license_code

theorem normalizeObs_eq_none_of_bad (o : RawObs)
    (h : (noAllowedPhoto o || disallowedObsLicense o) = true) :
    normalizeObs o = none := by
  unfold normalizeObs
  cases ht : o.taxon with
  | none => rfl
  | some taxon =>
    simp only
    by_cases hemp : (o.photos.getD []).isEmpty = true
    · rw [if_pos hemp]
    · rw [if_neg hemp]
      by_cases hrg : (REQUIRE_RESEARCH_GRADE && o.quality_grade != some "research") = true
      · rw [if_pos hrg]
      · rw [if_neg hrg]
        rcases Bool.or_eq_true_iff.mp h with h1 | h2
        · by_cases hlic : (strTruthy o.license_code && !licenseIsAllowed o.license_code) = true
          · rw [if_pos hlic]
          · rw [if_neg hlic]
            have hfind : (o.photos.getD []).find?
                (fun p => licenseIsAllowed p.license_code) = none := by
              rw [List.find?_eq_none]
              intro p hp
              have hall := List.all_eq_true.mp h1 p hp
              simp at hall ⊢
              exact hall
            rw [hfind]
        · unfold disallowedObsLicense at h2
          rw [if_pos h2]

theorem filterAndTransform_filter_bad (raw : List RawObs) :
    filterAndTransform
        (raw.filter (fun o => !(noAllowedPhoto o || disallowedObsLicense o))) =
      filterAndTransform raw := by
  induction raw with
  | nil => rfl
  | cons o rest ih =>
    by_cases hc : (noAllowedPhoto o || disallowedObsLicense o) = true
    · rw [List.filter_cons_of_neg (by simp [hc])]
      unfold filterAndTransform at ih ⊢
      rw [List.filterMap_cons, normalizeObs_eq_none_of_bad o hc]
      exact ih
    · rw [List.filter_cons_of_pos (by simp [hc])]
      unfold filterAndTransform at ih ⊢
      rw [List.filterMap_cons, List.filterMap_cons]
      cases normalizeObs o with
      | none => exact ih
      | some x => rw [ih]

/-- C6: `filterAndTransform` silently excludes every raw record that has
no photo with an allowed license (in particular, no photo at all) or a
present but disallowed observation-level license; removing such records
first changes nothing, and every output arises from normalizing some raw
input — the function is total, so no error is ever raised. -/
theorem filterAndTransform_drops_unlicensed (raw : List RawObs) :
    (∀ o ∈ raw, (noAllowedPhoto o || disallowedObsLicense o) = true →
      normalizeObs o = none) ∧
    filterAndTransform
        (raw.filter (fun o => !(noAllowedPhoto o || disallowedObsLicense o))) =
      filterAndTransform raw ∧
    ∀ x ∈ filterAndTransform raw, ∃ o ∈ raw, normalizeObs o = some x := by
  refine ⟨fun o _ h => normalizeObs_eq_none_of_bad o h,
    filterAndTransform_filter_bad raw, ?_⟩
  intro x hx
  exact List.mem_filterMap.mp hx

def pmTaxon : RawTaxon :=
  { id := some 6, name := some "Parus major", preferred_common_name := none }

def photolessRaw : RawObs :=
  { id := 6, taxon := some pmTaxon, photos := none,
    quality_grade := some "research", license_code := none, user_login := none }

/-- Witness for C6: a record without photos is dropped and the quiz input
is unchanged by removing it up front. -/
theorem filterAndTransform_drops_unlicensed_witness :
    normalizeObs photolessRaw = none ∧
    filterAndTransform
        ([photolessRaw].filter
          (fun o => !(noAllowedPhoto o || disallowedObsLicense o))) =
      filterAndTransform [photolessRaw] :=
  ⟨(filterAndTransform_drops_unlicensed [photolessRaw]).1 photolessRaw (by decide)
      (by decide),
   (filterAndTransform_drops_unlicensed [photolessRaw]).2.1⟩

theorem genusFromScientific_ne (s : String) (h : s ≠ "") :
    genusFromScientific s ≠ "" := by
  unfold genusFromScientific
  by_cases ht : firstSpaceToken s = ""
  · simp [ht]
    exact h
  · simp [ht]

/-- C9 (amended): every observation produced by `filterAndTransform` has
a non-null photo URL, a non-empty scientific name, a non-empty genus name
equal to the first space-separated token of the scientific name when that
token is non-empty and to the whole scientific name otherwise
(`genusFromScientific`), and null family name and broad group. -/
theorem filterAndTransform_output_invariants (raw : List RawObs) :
    ∀ o ∈ filterAndTransform raw,
      o.photoUrl.isSome = true ∧ o.scientificName ≠ "" ∧ o.genusName ≠ "" ∧
      o.genusName = genusFromScientific o.scientificName ∧
      o.familyName = none ∧ o.broadGroup = none := by
  intro o ho
  obtain ⟨r, _, hn⟩ := List.mem_filterMap.mp ho
  unfold normalizeObs at hn
  cases ht : r.taxon with
  | none =>
    rw [ht] at hn
    exact absurd hn (by simp)
  | some taxon =>
    rw [ht] at hn
    simp only at hn
    by_cases hemp : (r.photos.getD []).isEmpty = true
    · rw [if_pos hemp] at hn
      exact absurd hn (by simp)
    · rw [if_neg hemp] at hn
      by_cases hrg : (REQUIRE_RESEARCH_GRADE && r.quality_grade != some "research") = true
      · rw [if_pos hrg] at hn
        exact absurd hn (by simp)
      · rw [if_neg hrg] at hn
        by_cases hlic : (strTruthy r.license_code && !licenseIsAllowed r.license_code) = true
        · rw [if_pos hlic] at hn
          exact absurd hn (by simp)
        · rw [if_neg hlic] at hn
          split at hn
          · exact absurd hn (by simp)
          · split at hn
            · exact absurd hn (by simp)
            · split at hn
              · exact absurd hn (by simp)
              · rename_i hsci
                have ho2 := Option.some_injective Obs hn
                subst ho2
                refine ⟨rfl, hsci, ?_, rfl, rfl, rfl⟩
                exact genusFromScientific_ne _ hsci

def leadSpaceTaxon : RawTaxon :=
  { id := some 9, name := some " Abc", preferred_common_name := none }

def leadSpaceRaw : RawObs :=
  { id := 9, taxon := some leadSpaceTaxon,
    photos := some [{ url := some "x-square.jpg", license_code := some "cc0" }],
    quality_grade := some "research", license_code := none, user_login := none }

/-- C9 (counterexample): when the scientific name has a leading space, the
produced genus name is the whole name " Abc", which differs from the first
space-separated token (the empty string — and from "Abc" as well), because
`split(" ")[0] || scientificName` falls back to the full name. -/
theorem filterAndTransform_genus_not_first_token :
    ((filterAndTransform [leadSpaceRaw]).map (fun o => o.genusName)) = [" Abc"] ∧
    firstSpaceToken " Abc" = "" ∧ (" Abc" : String) ≠ "" ∧
    (" Abc" : String) ≠ "Abc" := by
  refine ⟨by decide, by decide, by decide, by decide⟩

def normalRaw : RawObs :=
  { id := 7, taxon := some pmTaxon,
    photos := some [{ url := some "y-square.jpg", license_code := some "cc-by" }],
    quality_grade := some "research", license_code := none, user_login := none }

/-- Witness for the amended C9 at a concrete well-formed record. -/
theorem filterAndTransform_output_invariants_witness :
    ((filterAndTransform [normalRaw]).headD soloObs).photoUrl.isSome = true ∧
    ((filterAndTransform [normalRaw]).headD soloObs).scientificName ≠ "" ∧
    ((filterAndTransform [normalRaw]).headD soloObs).genusName ≠ "" ∧
    ((filterAndTransform [normalRaw]).headD soloObs).genusName =
      genusFromScientific
        ((filterAndTransform [normalRaw]).headD soloObs).scientificName ∧
    ((filterAndTransform [normalRaw]).headD soloObs).familyName = none ∧
    ((filterAndTransform [normalRaw]).headD soloObs).broadGroup = none :=
  filterAndTransform_output_invariants [normalRaw]
    ((filterAndTransform [normalRaw]).headD soloObs) (by decide)

-- ==== C7: chunked enrichment ===========================================

theorem chunkList_nil : chunkList [] = [] := by
  unfold chunkList
  rw [dif_pos rfl]

theorem join_cons {α : Type} (a : List α) (ls : List (List α)) :
    (a :: ls).join = a ++ ls.join := rfl

theorem chunkList_join_aux :
    ∀ (n : Nat) (l : List Nat), l.length ≤ n → (chunkList l).join = l := by
  intro n
  induction n with
  | zero =>
    intro l h
    have hl : l = [] := List.eq_nil_of_length_eq_zero (Nat.le_zero.mp h)
    subst hl
    rw [chunkList_nil]
    rfl
  | succ n ih =>
    intro l h
    unfold chunkList
    by_cases he : l = []
    · rw [dif_pos he]
      exact he.symm
    · rw [dif_neg he]
      have hlp : 0 < l.length := List.length_pos.mpr he
      rw [join_cons, ih (l.drop 30) ?_]
      · exact List.take_append_drop 30 l
      · rw [List.length_drop]
        omega

theorem chunkList_join (l : List Nat) : (chunkList l).join = l :=
  chunkList_join_aux l.length l (Nat.le_refl _)

theorem chunkList_sizes_aux :
    ∀ (n : Nat) (l : List Nat), l.length ≤ n →
      ∀ c ∈ chunkList l, c ≠ [] ∧ c.length ≤ 30 := by
  intro n
  induction n with
  | zero =>
    intro l h c hc
    have hl : l = [] := List.eq_nil_of_length_eq_zero (Nat.le_zero.mp h)
    subst hl
    rw [chunkList_nil] at hc
    cases hc
  | succ n ih =>
    intro l h c hc
    unfold chunkList at hc
    by_cases he : l = []
    · rw [dif_pos he] at hc
      cases hc
    · rw [dif_neg he] at hc
      have hlp : 0 < l.length := List.length_pos.mpr he
      rcases List.mem_cons.mp hc with rfl | htail
      · constructor
        · intro hnil
          have h0 := congrArg List.length hnil
          rw [List.length_take] at h0
          simp only [List.length_nil] at h0
          omega
        · rw [List.length_take]
          omega
      · apply ih (l.drop 30) ?_ c htail
        rw [List.length_drop]
        omega

theorem chunkList_sizes (l : List Nat) :
    ∀ c ∈ chunkList l, c ≠ [] ∧ c.length ≤ 30 :=
  chunkList_sizes_aux l.length l (Nat.le_refl _)

theorem chunkList_dropLast_aux :
    ∀ (n : Nat) (l : List Nat), l.length ≤ n →
      ∀ c ∈ (chunkList l).dropLast, c.length = 30 := by
  intro n
  induction n with
  | zero =>
    intro l h c hc
    have hl : l = [] := List.eq_nil_of_length_eq_zero (Nat.le_zero.mp h)
    subst hl
    rw [chunkList_nil] at hc
    cases hc
  | succ n ih =>
    intro l h c hc
    unfold chunkList at hc
    by_cases he : l = []
    · rw [dif_pos he] at hc
      cases hc
    · rw [dif_neg he] at hc
      have hlp : 0 < l.length := List.length_pos.mpr he
      by_cases hd : l.drop 30 = []
      · rw [show chunkList (l.drop 30) = [] by rw [hd, chunkList_nil]] at hc
        simp at hc
      · have hne : chunkList (l.drop 30) ≠ [] := by
          unfold chunkList
          rw [dif_neg hd]
          simp
        have hlen30 : 30 < l.length := by
          by_contra hco
          exact hd (List.drop_eq_nil_of_le (Nat.le_of_not_lt hco))
        cases hck : chunkList (l.drop 30) with
        | nil => exact absurd hck hne
        | cons c0 cs =>
          rw [hck] at hc
          rw [show (l.take 30 :: c0 :: cs).dropLast = l.take 30 :: (c0 :: cs).dropLast
            from rfl] at hc
          rcases List.mem_cons.mp hc with rfl | htail
          · rw [List.length_take]
            omega
          · apply ih (l.drop 30) ?_ c ?_
            · rw [List.length_drop]
              omega
            · rw [hck]
              exact htail

theorem chunkList_dropLast (l : List Nat) :
    ∀ c ∈ (chunkList l).dropLast, c.length = 30 :=
  chunkList_dropLast_aux l.length l (Nat.le_refl _)

theorem processChunks_skip_eq_empty (responses : Nat → Option (List TaxonRec)) :
    ∀ (chunks : List (List Nat)) (k : Nat)
      (maps : List (Nat × String) × List (Nat × String)),
      processChunks responses chunks k maps =
        processChunks (fun i => some ((responses i).getD [])) chunks k maps := by
  intro chunks
  induction chunks with
  | nil => intro k maps; rfl
  | cons c rest ih =>
    intro k maps
    have hstep : processChunks (fun i => some ((responses i).getD [])) (c :: rest) k maps =
        processChunks (fun i => some ((responses i).getD [])) rest (k + 1)
          (((responses k).getD []).foldl insertTaxon maps) := rfl
    rw [hstep]
    cases hr : responses k with
    | none =>
      have hl : processChunks responses (c :: rest) k maps =
          processChunks responses rest (k + 1) maps := by
        show (match responses k with
          | none => processChunks responses rest (k + 1) maps
          | some taxa =>
            processChunks responses rest (k + 1) (taxa.foldl insertTaxon maps)) = _
        rw [hr]
      rw [hl]
      exact ih (k + 1) maps
    | some taxa =>
      have hl : processChunks responses (c :: rest) k maps =
          processChunks responses rest (k + 1) (taxa.foldl insertTaxon maps) := by
        show (match responses k with
          | none => processChunks responses rest (k + 1) maps
          | some taxa =>
            processChunks responses rest (k + 1) (taxa.foldl insertTaxon maps)) = _
        rw [hr]
      rw [hl]
      exact ih (k + 1) (taxa.foldl insertTaxon maps)

theorem insertTaxon_fst_cases (maps : List (Nat × String) × List (Nat × String))
    (t : TaxonRec) :
    (insertTaxon maps t).1 = maps.1 ∨
      ∃ v, (insertTaxon maps t).1 = (t.id, v) :: maps.1 := by
  unfold insertTaxon
  cases hf : taxonFamilyName t <;> cases hb : taxonBroadGroup t <;> simp
  case none.some b => by_cases hbe : b = "" <;> simp [hbe]
  case some.none f => by_cases hfe : f = "" <;> simp [hfe]
  case some.some f b =>
    by_cases hfe : f = "" <;> by_cases hbe : b = "" <;> simp [hfe, hbe]

theorem insertTaxon_snd_cases (maps : List (Nat × String) × List (Nat × String))
    (t : TaxonRec) :
    (insertTaxon maps t).2 = maps.2 ∨
      ∃ v, (insertTaxon maps t).2 = (t.id, v) :: maps.2 := by
  unfold insertTaxon
  cases hf : taxonFamilyName t <;> cases hb : taxonBroadGroup t <;> simp
  case none.some b => by_cases hbe : b = "" <;> simp [hbe]
  case some.none f => by_cases hfe : f = "" <;> simp [hfe]
  case some.some f b =>
    by_cases hfe : f = "" <;> by_cases hbe : b = "" <;> simp [hfe, hbe]

theorem foldl_insertTaxon_keys :
    ∀ (taxa : List TaxonRec) (maps : List (Nat × String) × List (Nat × String))
      (e : Nat × String),
      (e ∈ (taxa.foldl insertTaxon maps).1 → e ∈ maps.1 ∨ ∃ t ∈ taxa, t.id = e.1) ∧
      (e ∈ (taxa.foldl insertTaxon maps).2 → e ∈ maps.2 ∨ ∃ t ∈ taxa, t.id = e.1) := by
  intro taxa
  induction taxa with
  | nil => intro maps e; exact ⟨fun h => Or.inl h, fun h => Or.inl h⟩
  | cons t rest ih =>
    intro maps e
    constructor
    · intro h
      rcases (ih (insertTaxon maps t) e).1 h with hbase | ⟨t', ht', hte⟩
      · rcases insertTaxon_fst_cases maps t with he | ⟨v, he⟩
        · rw [he] at hbase
          exact Or.inl hbase
        · rw [he] at hbase
          rcases List.mem_cons.mp hbase with rfl | hm
          · exact Or.inr ⟨t, List.mem_cons_self t rest, rfl⟩
          · exact Or.inl hm
      · exact Or.inr ⟨t', List.mem_cons_of_mem t ht', hte⟩
    · intro h
      rcases (ih (insertTaxon maps t) e).2 h with hbase | ⟨t', ht', hte⟩
      · rcases insertTaxon_snd_cases maps t with he | ⟨v, he⟩
        · rw [he] at hbase
          exact Or.inl hbase
        · rw [he] at hbase
          rcases List.mem_cons.mp hbase with rfl | hm
          · exact Or.inr ⟨t, List.mem_cons_self t rest, rfl⟩
          · exact Or.inl hm
      · exact Or.inr ⟨t', List.mem_cons_of_mem t ht', hte⟩

theorem processChunks_keys (responses : Nat → Option (List TaxonRec)) :
    ∀ (chunks : List (List Nat)) (k : Nat)
      (maps : List (Nat × String) × List (Nat × String)) (e : Nat × String),
      (e ∈ (processChunks responses chunks k maps).1 →
        e ∈ maps.1 ∨ ∃ j taxa, responses j = some taxa ∧ ∃ t ∈ taxa, t.id = e.1) ∧
      (e ∈ (processChunks responses chunks k maps).2 →
        e ∈ maps.2 ∨ ∃ j taxa, responses j = some taxa ∧ ∃ t ∈ taxa, t.id = e.1) := by
  intro chunks
  induction chunks with
  | nil => intro k maps e; exact ⟨fun h => Or.inl h, fun h => Or.inl h⟩
  | cons c rest ih =>
    intro k maps e
    have hl1 : processChunks responses (c :: rest) k maps =
        (match responses k with
          | none => processChunks responses rest (k + 1) maps
          | some taxa =>
            processChunks responses rest (k + 1) (taxa.foldl insertTaxon maps)) := rfl
    rw [hl1]
    cases hr : responses k with
    | none => exact ih (k + 1) maps e
    | some taxa =>
      constructor
      · intro h
        rcases (ih (k + 1) (taxa.foldl insertTaxon maps) e).1 h with hbase | hfound
        · rcases (foldl_insertTaxon_keys taxa maps e).1 hbase with hm | ⟨t, ht, hte⟩
          · exact Or.inl hm
          · exact Or.inr ⟨k, taxa, hr, t, ht, hte⟩
        · exact Or.inr hfound
      · intro h
        rcases (ih (k + 1) (taxa.foldl insertTaxon maps) e).2 h with hbase | hfound
        · rcases (foldl_insertTaxon_keys taxa maps e).2 hbase with hm | ⟨t, ht, hte⟩
          · exact Or.inl hm
          · exact Or.inr ⟨k, taxa, hr, t, ht, hte⟩
        · exact Or.inr hfound

theorem mapGet_none_of_unresolved (responses : Nat → Option (List TaxonRec))
    (ids : List Nat) (tid : Option Nat)
    (hunres : ∀ j taxa, responses j = some taxa → ∀ t ∈ taxa, some t.id ≠ tid) :
    mapGet (processChunks responses (chunkList ids) 0 ([], [])).1 tid = none ∧
    mapGet (processChunks responses (chunkList ids) 0 ([], [])).2 tid = none := by
  cases tid with
  | none => exact ⟨rfl, rfl⟩
  | some i =>
    constructor
    · show ((processChunks responses (chunkList ids) 0 ([], [])).1.find?
        (fun e => e.1 == i)).map (fun e => e.2) = none
      rw [List.find?_eq_none.mpr ?_]
      · rfl
      · intro e he hbeq
        rcases (processChunks_keys responses (chunkList ids) 0 ([], []) e).1 he with
          hm | ⟨j, taxa, hj, t, ht, hte⟩
        · cases hm
        · apply hunres j taxa hj t ht
          simp at hbeq
          rw [hte, hbeq]
    · show ((processChunks responses (chunkList ids) 0 ([], [])).2.find?
        (fun e => e.1 == i)).map (fun e => e.2) = none
      rw [List.find?_eq_none.mpr ?_]
      · rfl
      · intro e he hbeq
        rcases (processChunks_keys responses (chunkList ids) 0 ([], []) e).2 he with
          hm | ⟨j, taxa, hj, t, ht, hte⟩
        · cases hm
        · apply hunres j taxa hj t ht
          simp at hbeq
          rw [hte, hbeq]

/-- C7: `enrichWithTaxaData` cuts the deduplicated taxon ids into chunks
of at most 30 (all but the last exactly 30, jointly covering the ids), a
chunk whose response failed is simply skipped — the result is the same as
if that chunk had returned an empty taxa list, so later chunks are still
processed and no error propagates —, the observation list keeps its
length and only the `familyName`/`broadGroup` fields change, and a taxon
id that no successful response resolves is looked up as `none`, so the
corresponding observations keep null family and broad group. -/
theorem enrichWithTaxaData_chunks_and_failures
    (responses : Nat → Option (List TaxonRec)) (obsList : List Obs) :
    (chunkList (taxonIdsOf obsList)).join = taxonIdsOf obsList ∧
    (∀ c ∈ chunkList (taxonIdsOf obsList), c ≠ [] ∧ c.length ≤ 30) ∧
    (∀ c ∈ (chunkList (taxonIdsOf obsList)).dropLast, c.length = 30) ∧
    enrichWithTaxaData responses obsList =
      enrichWithTaxaData (fun k => some ((responses k).getD [])) obsList ∧
    (enrichWithTaxaData responses obsList).length = obsList.length ∧
    (taxonIdsOf obsList = [] → enrichWithTaxaData responses obsList = obsList) ∧
    (taxonIdsOf obsList ≠ [] → enrichWithTaxaData responses obsList =
      obsList.map (fun o =>
        { o with
          familyName := mapGet (processChunks responses
            (chunkList (taxonIdsOf obsList)) 0 ([], [])).1 o.taxonId
          broadGroup := mapGet (processChunks responses
            (chunkList (taxonIdsOf obsList)) 0 ([], [])).2 o.taxonId })) ∧
    (∀ tid : Option Nat,
      (∀ j taxa, responses j = some taxa → ∀ t ∈ taxa, some t.id ≠ tid) →
      mapGet (processChunks responses (chunkList (taxonIdsOf obsList)) 0 ([], [])).1
          tid = none ∧
      mapGet (processChunks responses (chunkList (taxonIdsOf obsList)) 0 ([], [])).2
          tid = none) := by
  refine ⟨chunkList_join _, chunkList_sizes _, chunkList_dropLast _, ?_, ?_, ?_, ?_, ?_⟩
  · simp only [enrichWithTaxaData]
    by_cases h : taxonIdsOf obsList = []
    · rw [if_pos h, if_pos h]
    · rw [if_neg h, if_neg h, processChunks_skip_eq_empty]
  · simp only [enrichWithTaxaData]
    by_cases h : taxonIdsOf obsList = []
    · rw [if_pos h]
    · rw [if_neg h]
      exact List.length_map obsList _
  · intro h
    simp only [enrichWithTaxaData]
    rw [if_pos h]
  · intro h
    simp only [enrichWithTaxaData]
    rw [if_neg h]
  · intro tid hunres
    exact mapGet_none_of_unresolved responses (taxonIdsOf obsList) tid hunres

/-- Witness for C7 at a concrete input: with one observation and every
request failing, the run equals the all-empty-responses run and the
observation's taxon id resolves to nothing. -/
theorem enrichWithTaxaData_chunks_and_failures_witness :
    enrichWithTaxaData (fun _ => none) [soloObs] =
      enrichWithTaxaData (fun k => some (((fun _ : Nat => none) k).getD [])) [soloObs] ∧
    mapGet (processChunks (fun _ => none) (chunkList (taxonIdsOf [soloObs])) 0
        ([], [])).1 (some 1) = none :=
  ⟨(enrichWithTaxaData_chunks_and_failures (fun _ => none) [soloObs]).2.2.2.1,
   ((enrichWithTaxaData_chunks_and_failures (fun _ => none) [soloObs]).2.2.2.2.2.2.2
      (some 1) (fun j taxa h => Option.noConfusion h)).1⟩

-- ==== C8: sampling helpers =============================================

/-- C8: `pickRandomSubset` returns `min n |a|` elements forming a
sub-multiset of its input (each input position used at most once), and
`shuffleArray` returns a permutation of its input; both are embedded as
pure functions on a copy, as the JS functions operate on `array.slice()`
and never mutate their argument. -/
theorem shuffle_pick_subset_spec (α : Type) (rand : Nat → Nat) (a : List α) (n : Nat) :
    (pickRandomSubset rand a n).length = min n a.length ∧
    List.Subperm (pickRandomSubset rand a n) a ∧
    List.Perm (shuffleArray rand a) a :=
  ⟨pickRandomSubset_length rand a n, pickRandomSubset_subperm rand a n,
   shuffleArray_perm rand a⟩

-- ==== V2: the variant generator of src/unnamed/part_000 ================

namespace V2

/-- Observation record of the second script in `src/unnamed/part_000`;
it adds `didacticGroup`, and genus-mode distractors have null ids and
photo, so those fields are nullable here. -/
structure Obs where
  obsId : Option Nat
  taxonId : Option Nat
  photoUrl : Option String
  scientificName : String
  swedishName : Option String
  genusName : String
  familyName : Option String
  broadGroup : Option String
  didacticGroup : Option String
  observer : String
  licenseCode : Option String
  obsUrl : Option String
deriving DecidableEq

/-- Same `getGroupLabelForObs` as in src/app.js (part_000 lines 713-724). -/
def getGroupLabelForObs (level : Level) (obs : Obs) : Option String :=
  match level with
  | .genus => jsOrStr (some obs.genusName) (some obs.scientificName)
  | .family => normStr obs.familyName
  | .species => some obs.scientificName

def groupLabel (level : Level) (obs : Obs) : Option String :=
  normStr (getGroupLabelForObs level obs)

/-- Entry of the `groupsMap` (part_000 lines 937-951). -/
structure QuizGroup where
  label : String
  obs : Obs
  broadGroup : Option String
  didacticGroup : Option String
deriving DecidableEq

def buildGroups (level : Level) : List Obs → List QuizGroup → List QuizGroup
  | [], acc => acc
  | obs :: rest, acc =>
    match groupLabel level obs with
    | none => buildGroups level rest acc
    | some label =>
      if acc.any (fun g => g.label == label) then buildGroups level rest acc
      else
        buildGroups level rest
          (acc ++ [{ label := label, obs := obs,
                     broadGroup := normStr obs.broadGroup,
                     didacticGroup := normStr obs.didacticGroup }])

/-- External genus vocabulary entry (`externalDistractors`). -/
structure VocabGenus where
  scientificName : String
  swedishName : Option String
deriving DecidableEq

structure Question where
  correct : Obs
  options : List Obs
deriving DecidableEq

/-- Project-based same-broad-group candidates of the species/family
branch (part_000 lines 1015-1017).  There is no fallback here. -/
def projectCandidates (groups : List QuizGroup) (g : QuizGroup) : List QuizGroup :=
  groups.filter (fun x => x.label != g.label && x.broadGroup == g.broadGroup)

/-- Question loop of the variant `buildQuizQuestions`
(part_000 lines 959-1031): iterates the shuffled groups, breaks at
`QUESTIONS_COUNT`, skips groups without broad group, and in
species/family mode skips groups with fewer than
`OPTIONS_PER_QUESTION - 1` same-broad-group candidates. -/
def questionLoop (randD randO : Nat → Nat → Nat) (external : String → List VocabGenus)
    (level : Level) (groups : List QuizGroup) :
    Nat → List QuizGroup → List Question → List Question
  | _, [], qs => qs
  | k, g :: rest, qs =>
    if QUESTIONS_COUNT ≤ qs.length then qs
    else
      match g.broadGroup with
      | none => questionLoop randD randO external level groups (k + 1) rest qs
      | some correctBroad =>
        if level = Level.genus then
          if ¬ strTruthy g.didacticGroup then
            questionLoop randD randO external level groups (k + 1) rest qs
          else
            let vocabList := external (g.didacticGroup.getD "")
            if vocabList.isEmpty then
              questionLoop randD randO external level groups (k + 1) rest qs
            else
              match groupLabel level g.obs with
              | none => questionLoop randD randO external level groups (k + 1) rest qs
              | some correctGenusLabel =>
                let vocabClean := vocabList.filter
                  (fun v => v.scientificName != correctGenusLabel)
                if vocabClean.length < OPTIONS_PER_QUESTION - 1 then
                  questionLoop randD randO external level groups (k + 1) rest qs
                else
                  let chosenVocab := pickRandomSubset (randD k) vocabClean
                    (OPTIONS_PER_QUESTION - 1)
                  let distractorObs : List Obs := chosenVocab.map (fun v =>
                    { obsId := none, taxonId := none, photoUrl := none,
                      scientificName := v.scientificName,
                      swedishName := normStr v.swedishName,
                      genusName := v.scientificName, familyName := none,
                      broadGroup := some correctBroad,
                      didacticGroup := g.didacticGroup,
                      observer := "external", licenseCode := none,
                      obsUrl := none })
                  questionLoop randD randO external level groups (k + 1) rest
                    (qs ++ [{ correct := g.obs,
                              options := shuffleArray (randO k)
                                (g.obs :: distractorObs) }])
        else
          let cands := projectCandidates groups g
          if cands.length < OPTIONS_PER_QUESTION - 1 then
            questionLoop randD randO external level groups (k + 1) rest qs
          else
            let distractors := pickRandomSubset (randD k)
              (cands.map (fun cg => cg.obs)) (OPTIONS_PER_QUESTION - 1)
            questionLoop randD randO external level groups (k + 1) rest
              (qs ++ [{ correct := g.obs,
                        options := shuffleArray (randO k) (g.obs :: distractors) }])

/-- Embedding of the variant `buildQuizQuestions`
(part_000 lines 935-1034). -/
def buildQuizQuestions (randShuf : Nat → Nat) (randD randO : Nat → Nat → Nat)
    (external : String → List VocabGenus) (level : Level) (obsList : List Obs) :
    List Question :=
  let groups := buildGroups level obsList []
  if groups.isEmpty then []
  else questionLoop randD randO external level groups 0 (shuffleArray randShuf groups) []

end V2

def vObsA : V2.Obs :=
  { obsId := some 1, taxonId := some 1, photoUrl := some "p",
    scientificName := "Apis mellifera", swedishName := none, genusName := "Apis",
    familyName := none, broadGroup := some "Insecta",
    didacticGroup := some "insects", observer := "x", licenseCode := none,
    obsUrl := none }

def vObsB : V2.Obs :=
  { obsId := some 2, taxonId := some 2, photoUrl := some "q",
    scientificName := "Parus major", swedishName := none, genusName := "Parus",
    familyName := none, broadGroup := some "Aves", didacticGroup := some "birds",
    observer := "y", licenseCode := none, obsUrl := none }

/-- C3 (counterexample): in the variant generator of
`src/unnamed/part_000`, a selected group with fewer than
`OPTIONS_PER_QUESTION - 1` same-broad-group companions yields no
question at all: with one Insecta and one Aves species (each selected
group has zero same-broad candidates) the generator returns the empty
question list instead of falling back to distractors from all other
groups. -/
theorem v2_no_fallback_counterexample :
    ((V2.buildGroups Level.species [vObsA, vObsB] []).map
      (fun g => (V2.projectCandidates
        (V2.buildGroups Level.species [vObsA, vObsB] []) g).length)) = [0, 0] ∧
    V2.buildQuizQuestions zeroR zeroR2 zeroR2 (fun _ => []) Level.species
      [vObsA, vObsB] = [] := by
  constructor
  · decide
  · decide

-- ==== Vocab: the vocab-only quiz of src/unnamed/part_000 ===============

namespace Vocab

/-- Attempt bound of the vocab question builders (part_000 line 200). -/
def MAX_ATTEMPTS : Nat := 200

/-- Pre-baked example observation of a vocab entry. -/
structure ExObs where
  obsId : Option Nat
  photoUrl : Option String
  observer : Option String
  licenseCode : Option String
  obsUrl : Option String
deriving DecidableEq

/-- Species entry of a vocab JSON file. -/
structure SpeciesEntry where
  taxonId : Nat
  scientificName : String
  swedishName : Option String
  genusName : Option String
  familyName : Option String
  familySwedishName : Option String
  exampleObservation : Option ExObs
deriving DecidableEq

/-- Answer option of a vocab question. -/
structure QOption where
  key : String
  labelSci : String
  labelSwe : Option String
deriving DecidableEq

/-- Correct-answer payload of a vocab question. -/
structure QCorrect where
  answerKey : String
  labelSci : String
  labelSwe : Option String
  obsId : Option Nat
  photoUrl : Option String
  observer : String
  licenseCode : Option String
  obsUrl : String
  groupKey : String
deriving DecidableEq

structure Question where
  correct : QCorrect
  options : List QOption
deriving DecidableEq

def dummySpecies : SpeciesEntry :=
  { taxonId := 0, scientificName := "", swedishName := none, genusName := none,
    familyName := none, familySwedishName := none, exampleObservation := none }

/-- One iteration of the species quiz loop (part_000 lines 206-255):
`none` when a `continue` fires, otherwise the question pushed. -/
def speciesAttempt (randG randE : Nat → Nat) (randD randO : Nat → Nat → Nat)
    (available : List (String × List SpeciesEntry)) (attempt : Nat) :
    Option Question :=
  let entry := available.getD (randG attempt % available.length) ("", [])
  if entry.2.length ≤ OPTIONS_PER_QUESTION - 1 then none
  else
    let correctEntry := entry.2.getD (randE attempt % entry.2.length) dummySpecies
    match correctEntry.exampleObservation with
    | none => none
    | some ex =>
      if ¬ strTruthy ex.photoUrl then none
      else
        let pool := entry.2.filter (fun s => s.taxonId != correctEntry.taxonId)
        if pool.length < OPTIONS_PER_QUESTION - 1 then none
        else
          let distractorEntries := pickRandomSubset (randD attempt) pool
            (OPTIONS_PER_QUESTION - 1)
          let options : List QOption :=
            { key := toString correctEntry.taxonId,
              labelSci := correctEntry.scientificName,
              labelSwe := correctEntry.swedishName } ::
            distractorEntries.map (fun d =>
              { key := toString d.taxonId, labelSci := d.scientificName,
                labelSwe := d.swedishName })
          some { correct :=
                   { answerKey := toString correctEntry.taxonId,
                     labelSci := correctEntry.scientificName,
                     labelSwe := correctEntry.swedishName,
                     obsId := ex.obsId,
                     photoUrl := ex.photoUrl,
                     observer := (normStr ex.observer).getD "okänd",
                     licenseCode := normStr ex.licenseCode,
                     obsUrl := (normStr ex.obsUrl).getD "#",
                     groupKey := entry.1 },
                 options := shuffleArray (randO attempt) options }

/-- While-loop of the species builder; the fuel counts the remaining
attempts, starting at `MAX_ATTEMPTS`. -/
def speciesLoop (randG randE : Nat → Nat) (randD randO : Nat → Nat → Nat)
    (available : List (String × List SpeciesEntry)) :
    Nat → List Question → List Question
  | 0, qs => qs
  | fuel + 1, qs =>
    if qs.length < QUESTIONS_COUNT then
      match speciesAttempt randG randE randD randO available (MAX_ATTEMPTS - fuel) with
      | none => speciesLoop randG randE randD randO available fuel qs
      | some q => speciesLoop randG randE randD randO available fuel (qs ++ [q])
    else qs

/-- Embedding of `buildSpeciesQuizQuestionsFromVocab`
(part_000 lines 181-262). -/
def buildSpeciesQuizQuestionsFromVocab (randG randE : Nat → Nat)
    (randD randO : Nat → Nat → Nat)
    (vocabByGroup : List (String × List SpeciesEntry)) : List Question :=
  let availableGroups := vocabByGroup.filter
    (fun e => OPTIONS_PER_QUESTION - 1 < e.2.length)
  if availableGroups.isEmpty then []
  else speciesLoop randG randE randD randO availableGroups MAX_ATTEMPTS []

/-- Genus-level derived vocab entry (`buildGenusVocabFromSpecies`). -/
structure GenusEntry where
  genusName : String
  swedishName : Option String
  representative : SpeciesEntry
deriving DecidableEq

def dummyGenus : GenusEntry :=
  { genusName := "", swedishName := none, representative := dummySpecies }

/-- One iteration of the genus quiz loop (part_000 lines 291-344). -/
def genusAttempt (randG randE : Nat → Nat) (randD randO : Nat → Nat → Nat)
    (available : List (String × List GenusEntry)) (attempt : Nat) :
    Option Question :=
  let entry := available.getD (randG attempt % available.length) ("", [])
  if entry.2.length ≤ OPTIONS_PER_QUESTION - 1 then none
  else
    let correctGenus := entry.2.getD (randE attempt % entry.2.length) dummyGenus
    match correctGenus.representative.exampleObservation with
    | none => none
    | some ex =>
      if ¬ strTruthy ex.photoUrl then none
      else
        let pool := entry.2.filter (fun x => x.genusName != correctGenus.genusName)
        if pool.length < OPTIONS_PER_QUESTION - 1 then none
        else
          let distractorGenera := pickRandomSubset (randD attempt) pool
            (OPTIONS_PER_QUESTION - 1)
          let options : List QOption :=
            { key := correctGenus.genusName, labelSci := correctGenus.genusName,
              labelSwe := none } ::
            distractorGenera.map (fun g =>
              { key := g.genusName, labelSci := g.genusName, labelSwe := none })
          some { correct :=
                   { answerKey := correctGenus.genusName,
                     labelSci := correctGenus.genusName,
                     labelSwe := correctGenus.swedishName,
                     obsId := ex.obsId,
                     photoUrl := ex.photoUrl,
                     observer := (normStr ex.observer).getD "okänd",
                     licenseCode := normStr ex.licenseCode,
                     obsUrl := (normStr ex.obsUrl).getD "#",
                     groupKey := entry.1 },
                 options := shuffleArray (randO attempt) options }

def genusLoop (randG randE : Nat → Nat) (randD randO : Nat → Nat → Nat)
    (available : List (String × List GenusEntry)) :
    Nat → List Question → List Question
  | 0, qs => qs
  | fuel + 1, qs =>
    if qs.length < QUESTIONS_COUNT then
      match genusAttempt randG randE randD randO available (MAX_ATTEMPTS - fuel) with
      | none => genusLoop randG randE randD randO available fuel qs
      | some q => genusLoop randG randE randD randO available fuel (qs ++ [q])
    else qs

/-- Embedding of `buildGenusQuizQuestionsFromVocab`
(part_000 lines 266-351). -/
def buildGenusQuizQuestionsFromVocab (randG randE : Nat → Nat)
    (randD randO : Nat → Nat → Nat)
    (genusVocabByGroup : List (String × List GenusEntry)) : List Question :=
  let availableGroups := genusVocabByGroup.filter
    (fun e => OPTIONS_PER_QUESTION - 1 < e.2.length)
  if availableGroups.isEmpty then []
  else genusLoop randG randE randD randO availableGroups MAX_ATTEMPTS []

/-- Family-level derived vocab entry (`buildFamilyVocabFromSpecies`). -/
structure FamilyEntry where
  familyName : String
  swedishName : Option String
  representative : SpeciesEntry
  useExampleSpeciesName : Bool
deriving DecidableEq

def dummyFamily : FamilyEntry :=
  { familyName := "", swedishName := none, representative := dummySpecies,
    useExampleSpeciesName := false }

/-- Swedish label formatting of the family quiz (part_000 lines 408-412):
`useExampleSpeciesName && swe ? "t.ex. " + swe : swe`. -/
def familySweLabel (useExample : Bool) (swe : Option String) : Option String :=
  if useExample && strTruthy swe then some ("t.ex. " ++ swe.getD "") else swe

/-- One iteration of the family quiz loop (part_000 lines 382-447). -/
def familyAttempt (randG randE : Nat → Nat) (randD randO : Nat → Nat → Nat)
    (available : List (String × List FamilyEntry)) (attempt : Nat) :
    Option Question :=
  let entry := available.getD (randG attempt % available.length) ("", [])
  if entry.2.length ≤ OPTIONS_PER_QUESTION - 1 then none
  else
    let correctFamily := entry.2.getD (randE attempt % entry.2.length) dummyFamily
    match correctFamily.representative.exampleObservation with
    | none => none
    | some ex =>
      if ¬ strTruthy ex.photoUrl then none
      else
        let pool := entry.2.filter (fun f => f.familyName != correctFamily.familyName)
        if pool.length < OPTIONS_PER_QUESTION - 1 then none
        else
          let distractorFamilies := pickRandomSubset (randD attempt) pool
            (OPTIONS_PER_QUESTION - 1)
          let options : List QOption :=
            { key := correctFamily.familyName, labelSci := correctFamily.familyName,
              labelSwe := familySweLabel correctFamily.useExampleSpeciesName
                correctFamily.swedishName } ::
            distractorFamilies.map (fun f =>
              { key := f.familyName, labelSci := f.familyName,
                labelSwe := familySweLabel f.useExampleSpeciesName f.swedishName })
          some { correct :=
                   { answerKey := correctFamily.familyName,
                     labelSci := correctFamily.familyName,
                     labelSwe := correctFamily.swedishName,
                     obsId := ex.obsId,
                     photoUrl := ex.photoUrl,
                     observer := (normStr ex.observer).getD "okänd",
                     licenseCode := normStr ex.licenseCode,
                     obsUrl := (normStr ex.obsUrl).getD "#",
                     groupKey := entry.1 },
                 options := shuffleArray (randO attempt) options }

def familyLoop (randG randE : Nat → Nat) (randD randO : Nat → Nat → Nat)
    (available : List (String × List FamilyEntry)) :
    Nat → List Question → List Question
  | 0, qs => qs
  | fuel + 1, qs =>
    if qs.length < QUESTIONS_COUNT then
      match familyAttempt randG randE randD randO available (MAX_ATTEMPTS - fuel) with
      | none => familyLoop randG randE randD randO available fuel qs
      | some q => familyLoop randG randE randD randO available fuel (qs ++ [q])
    else qs

/-- Embedding of `buildFamilyQuizQuestionsFromVocab`
(part_000 lines 355-454). -/
def buildFamilyQuizQuestionsFromVocab (randG randE : Nat → Nat)
    (randD randO : Nat → Nat → Nat)
    (familyVocabByGroup : List (String × List FamilyEntry)) : List Question :=
  let availableGroups := familyVocabByGroup.filter
    (fun e => OPTIONS_PER_QUESTION - 1 < e.2.length)
  if availableGroups.isEmpty then []
  else familyLoop randG randE randD randO availableGroups MAX_ATTEMPTS []

end Vocab

theorem speciesLoop_le (randG randE : Nat → Nat) (randD randO : Nat → Nat → Nat)
    (available : List (String × List Vocab.SpeciesEntry)) :
    ∀ (fuel : Nat) (qs : List Vocab.Question), qs.length ≤ QUESTIONS_COUNT →
      (Vocab.speciesLoop randG randE randD randO available fuel qs).length ≤
        QUESTIONS_COUNT := by
  intro fuel
  induction fuel with
  | zero => intro qs h; exact h
  | succ n ih =>
    intro qs h
    show (if qs.length < QUESTIONS_COUNT then
        match Vocab.speciesAttempt randG randE randD randO available
          (Vocab.MAX_ATTEMPTS - n) with
        | none => Vocab.speciesLoop randG randE randD randO available n qs
        | some q => Vocab.speciesLoop randG randE randD randO available n (qs ++ [q])
      else qs).length ≤ QUESTIONS_COUNT
    by_cases hlt : qs.length < QUESTIONS_COUNT
    · rw [if_pos hlt]
      cases Vocab.speciesAttempt randG randE randD randO available
          (Vocab.MAX_ATTEMPTS - n) with
      | none => exact ih qs h
      | some q =>
        apply ih (qs ++ [q])
        rw [List.length_append]
        simp
        omega
    · rw [if_neg hlt]
      exact h

theorem genusLoop_le (randG randE : Nat → Nat) (randD randO : Nat → Nat → Nat)
    (available : List (String × List Vocab.GenusEntry)) :
    ∀ (fuel : Nat) (qs : List Vocab.Question), qs.length ≤ QUESTIONS_COUNT →
      (Vocab.genusLoop randG randE randD randO available fuel qs).length ≤
        QUESTIONS_COUNT := by
  intro fuel
  induction fuel with
  | zero => intro qs h; exact h
  | succ n ih =>
    intro qs h
    show (if qs.length < QUESTIONS_COUNT then
        match Vocab.genusAttempt randG randE randD randO available
          (Vocab.MAX_ATTEMPTS - n) with
        | none => Vocab.genusLoop randG randE randD randO available n qs
        | some q => Vocab.genusLoop randG randE randD randO available n (qs ++ [q])
      else qs).length ≤ QUESTIONS_COUNT
    by_cases hlt : qs.length < QUESTIONS_COUNT
    · rw [if_pos hlt]
      cases Vocab.genusAttempt randG randE randD randO available
          (Vocab.MAX_ATTEMPTS - n) with
      | none => exact ih qs h
      | some q =>
        apply ih (qs ++ [q])
        rw [List.length_append]
        simp
        omega
    · rw [if_neg hlt]
      exact h

theorem familyLoop_le (randG randE : Nat → Nat) (randD randO : Nat → Nat → Nat)
    (available : List (String × List Vocab.FamilyEntry)) :
    ∀ (fuel : Nat) (qs : List Vocab.Question), qs.length ≤ QUESTIONS_COUNT →
      (Vocab.familyLoop randG randE randD randO available fuel qs).length ≤
        QUESTIONS_COUNT := by
  intro fuel
  induction fuel with
  | zero => intro qs h; exact h
  | succ n ih =>
    intro qs h
    show (if qs.length < QUESTIONS_COUNT then
        match Vocab.familyAttempt randG randE randD randO available
          (Vocab.MAX_ATTEMPTS - n) with
        | none => Vocab.familyLoop randG randE randD randO available n qs
        | some q => Vocab.familyLoop randG randE randD randO available n (qs ++ [q])
      else qs).length ≤ QUESTIONS_COUNT
    by_cases hlt : qs.length < QUESTIONS_COUNT
    · rw [if_pos hlt]
      cases Vocab.familyAttempt randG randE randD randO available
          (Vocab.MAX_ATTEMPTS - n) with
      | none => exact ih qs h
      | some q =>
        apply ih (qs ++ [q])
        rw [List.length_append]
        simp
        omega
    · rw [if_neg hlt]
      exact h

def mkSp (n : Nat) (valid : Bool) : Vocab.SpeciesEntry :=
  { taxonId := n, scientificName := "Sp" ++ toString n, swedishName := none,
    genusName := none, familyName := none, familySwedishName := none,
    exampleObservation := if valid then
      some { obsId := some n, photoUrl := some "p", observer := none,
             licenseCode := none, obsUrl := none }
      else none }

/-- Species vocab with one group of 11 entries of which only the first
lacks a usable example observation. -/
def shortSpeciesVocab : List (String × List Vocab.SpeciesEntry) :=
  [("insects", (List.range 11).map (fun n => mkSp n (n != 0)))]

/-- Genus vocab with one group of 11 genera whose first representative
lacks a usable example observation. -/
def shortGenusVocab : List (String × List Vocab.GenusEntry) :=
  [("insects", (List.range 11).map (fun n =>
    { genusName := "G" ++ toString n, swedishName := none,
      representative := mkSp n (n != 0) }))]

/-- Family vocab with one group of 11 families whose first representative
lacks a usable example observation. -/
def shortFamilyVocab : List (String × List Vocab.FamilyEntry) :=
  [("insects", (List.range 11).map (fun n =>
    { familyName := "F" ++ toString n, swedishName := none,
      representative := mkSp n (n != 0), useExampleSpeciesName := false }))]

/-- C10: each vocab-based question builder runs its sampling loop at most
`MAX_ATTEMPTS = 200` times (the structural fuel of the embedding), always
terminates, and returns at most `QUESTIONS_COUNT` questions; and each may
return fewer than `QUESTIONS_COUNT` even when enough distinct entries
exist — concretely, a group of 11 entries (10 of them usable) yields zero
questions when every attempt draws the unusable entry. -/
theorem vocab_builders_bounded :
    (∀ (randG randE : Nat → Nat) (randD randO : Nat → Nat → Nat)
      (vocab : List (String × List Vocab.SpeciesEntry)),
      (Vocab.buildSpeciesQuizQuestionsFromVocab randG randE randD randO
        vocab).length ≤ QUESTIONS_COUNT) ∧
    (∀ (randG randE : Nat → Nat) (randD randO : Nat → Nat → Nat)
      (vocab : List (String × List Vocab.GenusEntry)),
      (Vocab.buildGenusQuizQuestionsFromVocab randG randE randD randO
        vocab).length ≤ QUESTIONS_COUNT) ∧
    (∀ (randG randE : Nat → Nat) (randD randO : Nat → Nat → Nat)
      (vocab : List (String × List Vocab.FamilyEntry)),
      (Vocab.buildFamilyQuizQuestionsFromVocab randG randE randD randO
        vocab).length ≤ QUESTIONS_COUNT) ∧
    (Vocab.buildSpeciesQuizQuestionsFromVocab zeroR zeroR zeroR2 zeroR2
        shortSpeciesVocab = [] ∧
      shortSpeciesVocab.map (fun e => e.2.length) = [11]) ∧
    (Vocab.buildGenusQuizQuestionsFromVocab zeroR zeroR zeroR2 zeroR2
        shortGenusVocab = [] ∧
      shortGenusVocab.map (fun e => e.2.length) = [11]) ∧
    (Vocab.buildFamilyQuizQuestionsFromVocab zeroR zeroR zeroR2 zeroR2
        shortFamilyVocab = [] ∧
      shortFamilyVocab.map (fun e => e.2.length) = [11]) := by
  refine ⟨?_, ?_, ?_, ⟨by decide, by decide⟩, ⟨by decide, by decide⟩,
    ⟨by decide, by decide⟩⟩
  · intro randG randE randD randO vocab
    simp only [Vocab.buildSpeciesQuizQuestionsFromVocab]
    by_cases he : (vocab.filter
        (fun e => OPTIONS_PER_QUESTION - 1 < e.2.length)).isEmpty = true
    · rw [if_pos he]
      simp [QUESTIONS_COUNT]
    · rw [if_neg he]
      exact speciesLoop_le randG randE randD randO _ Vocab.MAX_ATTEMPTS []
        (by simp [QUESTIONS_COUNT])
  · intro randG randE randD randO vocab
    simp only [Vocab.buildGenusQuizQuestionsFromVocab]
    by_cases he : (vocab.filter
        (fun e => OPTIONS_PER_QUESTION - 1 < e.2.length)).isEmpty = true
    · rw [if_pos he]
      simp [QUESTIONS_COUNT]
    · rw [if_neg he]
      exact genusLoop_le randG randE randD randO _ Vocab.MAX_ATTEMPTS []
        (by simp [QUESTIONS_COUNT])
  · intro randG randE randD randO vocab
    simp only [Vocab.buildFamilyQuizQuestionsFromVocab]
    by_cases he : (vocab.filter
        (fun e => OPTIONS_PER_QUESTION - 1 < e.2.length)).isEmpty = true
    · rw [if_pos he]
      simp [QUESTIONS_COUNT]
    · rw [if_neg he]
      exact familyLoop_le randG randE randD randO _ Vocab.MAX_ATTEMPTS []
        (by simp [QUESTIONS_COUNT])

-- ==== option invariants of the vocab species builder ===================

theorem getD_mem_or {α : Type} (l : List α) (i : Nat) (d : α) :
    l.getD i d ∈ l ∨ l.getD i d = d := by
  by_cases h : i < l.length
  · left
    rw [List.getD_eq_getElem l d h]
    exact List.getElem_mem h
  · right
    rw [List.getD_eq_default l d (Nat.le_of_not_lt h)]

theorem speciesLoop_mem (randG randE : Nat → Nat) (randD randO : Nat → Nat → Nat)
    (available : List (String × List Vocab.SpeciesEntry)) :
    ∀ (fuel : Nat) (qs : List Vocab.Question) (q : Vocab.Question),
      q ∈ Vocab.speciesLoop randG randE randD randO available fuel qs →
      q ∈ qs ∨ ∃ attempt,
        Vocab.speciesAttempt randG randE randD randO available attempt = some q := by
  intro fuel
  induction fuel with
  | zero => intro qs q h; exact Or.inl h
  | succ n ih =>
    intro qs q h
    rw [show Vocab.speciesLoop randG randE randD randO available (n + 1) qs =
      (if qs.length < QUESTIONS_COUNT then
        match Vocab.speciesAttempt randG randE randD randO available
          (Vocab.MAX_ATTEMPTS - n) with
        | none => Vocab.speciesLoop randG randE randD randO available n qs
        | some q' => Vocab.speciesLoop randG randE randD randO available n (qs ++ [q'])
      else qs) from rfl] at h
    by_cases hlt : qs.length < QUESTIONS_COUNT
    · rw [if_pos hlt] at h
      cases hA : Vocab.speciesAttempt randG randE randD randO available
          (Vocab.MAX_ATTEMPTS - n) with
      | none =>
        rw [hA] at h
        exact ih qs q h
      | some q' =>
        rw [hA] at h
        rcases ih (qs ++ [q']) q h with hl | hr
        · rcases List.mem_append.mp hl with hql | hqr
          · exact Or.inl hql
          · rcases List.mem_singleton.mp hqr with rfl
            exact Or.inr ⟨Vocab.MAX_ATTEMPTS - n, hA⟩
        · exact Or.inr hr
    · rw [if_neg hlt] at h
      exact Or.inl h

theorem vocab_option_labels (randO : Nat → Nat) (C : Vocab.SpeciesEntry)
    (lst ds : List Vocab.SpeciesEntry)
    (hsub : List.Subperm ds (lst.filter (fun s => s.taxonId != C.taxonId)))
    (hC : C ∈ lst)
    (hnn : (lst.map (fun s => s.scientificName)).Nodup)
    (opts : List Vocab.QOption)
    (hopts : opts.map (fun o => o.labelSci) =
      C.scientificName :: ds.map (fun d => d.scientificName)) :
    ((shuffleArray randO opts).map (fun opt => opt.labelSci)).Nodup ∧
    ((shuffleArray randO opts).map (fun opt => opt.labelSci)).countP
      (fun s => s == C.scientificName) = 1 := by
  have hperm : List.Perm ((shuffleArray randO opts).map (fun opt => opt.labelSci))
      (C.scientificName :: ds.map (fun d => d.scientificName)) := by
    have hp := (shuffleArray_perm randO opts).map (fun opt => opt.labelSci)
    rw [hopts] at hp
    exact hp
  have hdsn : (ds.map (fun d => d.scientificName)).Nodup := by
    apply subperm_nodup (subperm_map _ hsub)
    exact ((List.filter_sublist lst).map (fun d => d.scientificName)).nodup hnn
  have hnotin : C.scientificName ∉ ds.map (fun d => d.scientificName) := by
    intro hin
    obtain ⟨d, hd, hde⟩ := List.mem_map.mp hin
    have hdf := List.mem_filter.mp (hsub.subset hd)
    have hdt : d.taxonId ≠ C.taxonId := by simpa using hdf.2
    have hde2 : d = C := List.inj_on_of_nodup_map hnn hdf.1 hC hde
    exact hdt (by rw [hde2])
  constructor
  · exact hperm.symm.nodup (List.nodup_cons.mpr ⟨hnotin, hdsn⟩)
  · rw [hperm.countP_eq, List.countP_cons]
    have htail : (ds.map (fun d => d.scientificName)).countP
        (fun s => s == C.scientificName) = 0 := by
      rw [List.countP_eq_zero]
      intro s hs hbeq
      apply hnotin
      have hse : s = C.scientificName := by simpa using hbeq
      rwa [hse] at hs
    rw [htail]
    simp

theorem speciesAttempt_options (randG randE : Nat → Nat) (randD randO : Nat → Nat → Nat)
    (available : List (String × List Vocab.SpeciesEntry)) (attempt : Nat)
    (q : Vocab.Question)
    (h : Vocab.speciesAttempt randG randE randD randO available attempt = some q) :
    q.options.length = OPTIONS_PER_QUESTION ∧
    (((available.getD (randG attempt % available.length) ("", [])).2.map
        (fun s => s.scientificName)).Nodup →
      (q.options.map (fun opt => opt.labelSci)).Nodup ∧
      (q.options.map (fun opt => opt.labelSci)).countP
        (fun s => s == q.correct.labelSci) = 1) := by
  unfold Vocab.speciesAttempt at h
  simp only at h
  set E := available.getD (randG attempt % available.length) ("", []) with hE
  set C := E.2.getD (randE attempt % E.2.length) Vocab.dummySpecies with hCdef
  set pool := E.2.filter (fun s => s.taxonId != C.taxonId) with hPdef
  set ds := pickRandomSubset (randD attempt) pool (OPTIONS_PER_QUESTION - 1) with hDdef
  by_cases h1 : E.2.length ≤ OPTIONS_PER_QUESTION - 1
  · rw [if_pos h1] at h
    exact absurd h (by simp)
  · rw [if_neg h1] at h
    split at h
    · exact absurd h (by simp)
    · split at h
      · exact absurd h (by simp)
      · split at h
        · exact absurd h (by simp)
        · rename_i hpool
          have hq := (Option.some_injective _ h).symm
          subst hq
          constructor
          · show (shuffleArray (randO attempt) _).length = OPTIONS_PER_QUESTION
            rw [shuffleArray_length, List.length_cons, List.length_map, hDdef,
              pickRandomSubset_length]
            simp only [OPTIONS_PER_QUESTION] at hpool ⊢
            omega
          · intro hnn
            have hlen0 : 0 < E.2.length := by
              simp only [OPTIONS_PER_QUESTION] at h1
              omega
            have hCmem : C ∈ E.2 := by
              rw [hCdef, List.getD_eq_getElem E.2 Vocab.dummySpecies
                (Nat.mod_lt _ hlen0)]
              exact List.getElem_mem _
            exact vocab_option_labels (randO attempt) C E.2 ds
              (hDdef ▸ pickRandomSubset_subperm (randD attempt) pool
                (OPTIONS_PER_QUESTION - 1))
              hCmem hnn _ (by rw [List.map_cons, List.map_map]; rfl)

theorem buildSpeciesVocab_mem (randG randE : Nat → Nat) (randD randO : Nat → Nat → Nat)
    (vocab : List (String × List Vocab.SpeciesEntry)) (q : Vocab.Question)
    (h : q ∈ Vocab.buildSpeciesQuizQuestionsFromVocab randG randE randD randO vocab) :
    ∃ attempt, Vocab.speciesAttempt randG randE randD randO
      (vocab.filter (fun e => OPTIONS_PER_QUESTION - 1 < e.2.length)) attempt =
        some q := by
  simp only [Vocab.buildSpeciesQuizQuestionsFromVocab] at h
  by_cases he : (vocab.filter (fun e => OPTIONS_PER_QUESTION - 1 < e.2.length)).isEmpty
      = true
  · rw [if_pos he] at h
    cases h
  · rw [if_neg he] at h
    rcases speciesLoop_mem randG randE randD randO _ Vocab.MAX_ATTEMPTS [] q h with
      hl | hr
    · cases hl
    · exact hr

/-- C1 (amended): every question built by the src/app.js generator has
exactly `min OPTIONS_PER_QUESTION groupCount` options, with pairwise
distinct group labels and the correct label occurring exactly once.
Every question built by the vocab species builder of
`src/unnamed/part_000` has exactly `OPTIONS_PER_QUESTION` options, and —
provided the entries of each vocab group carry pairwise distinct
scientific names — its option labels are pairwise distinct with the
correct label occurring exactly once; since its distractor pool excludes
only the correct taxon id, entries sharing a scientific name under
different taxon ids produce duplicate option labels (see the
counterexample). -/
theorem quiz_question_option_invariants :
    (∀ (randSel : Nat → Nat) (randD randO : Nat → Nat → Nat) (level : Level)
      (obsList : List Obs) (q : Question),
      q ∈ buildQuizQuestions randSel randD randO level obsList →
      q.options.length = min OPTIONS_PER_QUESTION (buildGroups level obsList []).length ∧
      (q.options.map (groupLabel level)).Nodup ∧
      (q.options.map (groupLabel level)).countP
        (fun s => s == groupLabel level q.correct) = 1) ∧
    (∀ (randG randE : Nat → Nat) (randD randO : Nat → Nat → Nat)
      (vocab : List (String × List Vocab.SpeciesEntry)) (q : Vocab.Question),
      q ∈ Vocab.buildSpeciesQuizQuestionsFromVocab randG randE randD randO vocab →
      q.options.length = OPTIONS_PER_QUESTION) ∧
    (∀ (randG randE : Nat → Nat) (randD randO : Nat → Nat → Nat)
      (vocab : List (String × List Vocab.SpeciesEntry)) (q : Vocab.Question),
      (∀ e ∈ vocab, (e.2.map (fun s => s.scientificName)).Nodup) →
      q ∈ Vocab.buildSpeciesQuizQuestionsFromVocab randG randE randD randO vocab →
      (q.options.map (fun opt => opt.labelSci)).Nodup ∧
      (q.options.map (fun opt => opt.labelSci)).countP
        (fun s => s == q.correct.labelSci) = 1) := by
  refine ⟨quiz_options_core, ?_, ?_⟩
  · intro randG randE randD randO vocab q hq
    obtain ⟨attempt, hA⟩ := buildSpeciesVocab_mem randG randE randD randO vocab q hq
    exact (speciesAttempt_options randG randE randD randO _ attempt q hA).1
  · intro randG randE randD randO vocab q hall hq
    obtain ⟨attempt, hA⟩ := buildSpeciesVocab_mem randG randE randD randO vocab q hq
    have hopt := speciesAttempt_options randG randE randD randO _ attempt q hA
    rcases getD_mem_or (vocab.filter (fun e => OPTIONS_PER_QUESTION - 1 < e.2.length))
        (randG attempt %
          (vocab.filter (fun e => OPTIONS_PER_QUESTION - 1 < e.2.length)).length)
        ("", []) with hmem | hdef
    · exact hopt.2 (hall _ (List.mem_of_mem_filter hmem))
    · exact hopt.2 (by rw [hdef]; simp)

def mkExN (n : Nat) : Vocab.ExObs :=
  { obsId := some n, photoUrl := some "p", observer := none, licenseCode := none,
    obsUrl := none }

def mkSpN (n : Nat) (sci : String) : Vocab.SpeciesEntry :=
  { taxonId := n, scientificName := sci, swedishName := none, genusName := none,
    familyName := none, familySwedishName := none,
    exampleObservation := some (mkExN n) }

/-- Species vocab with one group of four entries carrying pairwise
distinct scientific names. -/
def cleanVocab : List (String × List Vocab.SpeciesEntry) :=
  [("insects", [mkSpN 0 "Apis mellifera", mkSpN 1 "Bombus terrestris",
                mkSpN 2 "Vespa crabro", mkSpN 3 "Formica rufa"])]

/-- Species vocab with one group of four entries where two entries share
a scientific name under different taxon ids. -/
def dupVocab : List (String × List Vocab.SpeciesEntry) :=
  [("insects", [mkSpN 0 "Apis mellifera", mkSpN 1 "Apis mellifera",
                mkSpN 2 "Vespa crabro", mkSpN 3 "Formica rufa"])]

/-- Species vocab with one group of five usable entries with distinct
names: only five distinct species exist. -/
def fiveVocab : List (String × List Vocab.SpeciesEntry) :=
  [("insects", [mkSpN 0 "Aa aa", mkSpN 1 "Bb bb", mkSpN 2 "Cc cc",
                mkSpN 3 "Dd dd", mkSpN 4 "Ee ee"])]

def dummyVQ : Vocab.Question :=
  { correct := { answerKey := "", labelSci := "", labelSwe := none, obsId := none,
                 photoUrl := none, observer := "", licenseCode := none, obsUrl := "",
                 groupKey := "" },
    options := [] }

def dupVQ0 : Vocab.Question :=
  (Vocab.buildSpeciesQuizQuestionsFromVocab zeroR zeroR zeroR2 zeroR2
    dupVocab).headD dummyVQ

def cleanVQ0 : Vocab.Question :=
  (Vocab.buildSpeciesQuizQuestionsFromVocab zeroR zeroR zeroR2 zeroR2
    cleanVocab).headD dummyVQ

/-- C1 (counterexample): the original claim fails on both cited
generators.  In src/app.js an observation list with a single group
produces a question with one option, not `OPTIONS_PER_QUESTION`.  In the
vocab species builder of `src/unnamed/part_000`, whose distractor pool
excludes only the correct taxon id, two entries sharing the scientific
name "Apis mellifera" under different taxon ids produce a question whose
option labels are not pairwise distinct and whose correct label appears
twice. -/
theorem quiz_options_invariant_counterexample :
    ((buildQuizQuestions zeroR zeroR2 zeroR2 Level.species [soloObs]).map
      (fun q => q.options.length)) = [1] ∧ (1 : Nat) ≠ OPTIONS_PER_QUESTION ∧
    dupVQ0.options.length = OPTIONS_PER_QUESTION ∧
    (dupVQ0.options.map (fun opt => opt.labelSci)).countP
      (fun s => s == dupVQ0.correct.labelSci) = 2 ∧ (2 : Nat) ≠ 1 ∧
    ¬ (dupVQ0.options.map (fun opt => opt.labelSci)).Nodup := by
  refine ⟨by decide, by decide, by decide, by decide, by decide, by decide⟩

/-- Witness for the amended C1: a concrete four-group observation list
and a concrete four-entry vocab group with distinct names. -/
theorem quiz_question_option_invariants_witness :
    insectQ0.options.length =
      min OPTIONS_PER_QUESTION (buildGroups Level.species insectList []).length ∧
    cleanVQ0.options.length = OPTIONS_PER_QUESTION ∧
    (cleanVQ0.options.map (fun opt => opt.labelSci)).countP
      (fun s => s == cleanVQ0.correct.labelSci) = 1 :=
  ⟨(quiz_question_option_invariants.1 zeroR zeroR2 zeroR2 Level.species insectList
      insectQ0 (by decide)).1,
   quiz_question_option_invariants.2.1 zeroR zeroR zeroR2 zeroR2 cleanVocab cleanVQ0
     (by decide),
   (quiz_question_option_invariants.2.2 zeroR zeroR zeroR2 zeroR2 cleanVocab cleanVQ0
     (by decide) (by decide)).2⟩

/-- C2 (counterexample): the vocab species builder samples its correct
entry with replacement on every attempt: with five distinct usable
species in one group it returns `QUESTIONS_COUNT` questions whose
correct answers all repeat the same species, instead of
`min QUESTIONS_COUNT 5 = 5` questions with pairwise distinct correct
answers. -/
theorem vocab_species_with_replacement_counterexample :
    (Vocab.buildSpeciesQuizQuestionsFromVocab zeroR zeroR zeroR2 zeroR2
        fiveVocab).map (fun q => q.correct.answerKey) =
      List.replicate QUESTIONS_COUNT "0" ∧
    fiveVocab.map (fun e => e.2.length) = [5] ∧
    QUESTIONS_COUNT ≠ min QUESTIONS_COUNT 5 ∧
    ¬ ((Vocab.buildSpeciesQuizQuestionsFromVocab zeroR zeroR zeroR2 zeroR2
        fiveVocab).map (fun q => q.correct.answerKey)).Nodup := by
  refine ⟨by decide, by decide, by decide, by decide⟩
